import Mathlib

/-!
Pedometer: ring buffer, step detector, elevation tracker and stride model

A shallow embedding of `src/llama.js` (classes `Pedometer`, `CircularBuffer`)
and `src/claude.js` (class `BarometerEnhancedStepCounter`).

Conventions of the embedding.

* JavaScript numbers are modelled by exact rationals (`ℚ`); counters and
  array positions that the code only ever increments from `0` are `Nat`.
  Rounding of IEEE doubles is not modelled.  Where the code divides
  (`updateMetrics`), the two zeros, the infinities and `NaN` are modelled.
  `calculateDistance` is modelled on real numbers.
* A slot of a JavaScript array is an `Option`: `none` is `undefined`
  (a hole of `new Array(size)` or a read outside the array).
* Methods mutate `this`; here every method takes the object and returns the
  updated object (together with its return value when it has one).
-/

namespace Pedometer

/-! ## `CircularBuffer` (src/llama.js, lines 82–97) -/

/-- The object built by `new CircularBuffer(size)`: the fields `size`, `data`
and `index`. -/
structure CircularBuffer (α : Type) where
  size : Nat
  data : List (Option α)
  index : Nat
deriving Repr, DecidableEq

/-- JavaScript `arr[i] = v` for a non-negative integer `i`: overwrite slot `i`
when it exists, otherwise grow the array, leaving holes in between. -/
def arrayAssign {α : Type} (arr : List (Option α)) (i : Nat) (v : Option α) :
    List (Option α) :=
  if i < arr.length then arr.set i v
  else arr ++ List.replicate (i - arr.length) none ++ [v]

/-- JavaScript `arr[j]` for an integer `j`: `undefined` outside `0 .. length-1`. -/
def arrayRead {α : Type} (arr : List (Option α)) (j : Int) : Option α :=
  if j < 0 then none else (arr[j.toNat]?).join

namespace CircularBuffer

/-- Constructor `constructor(size)`: `data = new Array(size)` (all holes), `index = 0`. -/
def new {α : Type} (size : Nat) : CircularBuffer α :=
  { size := size, data := List.replicate size none, index := 0 }

/-- Method `push(value)`: `this.data[this.index] = value;`
`this.index = (this.index + 1) % this.size;` (for `size ≥ 1`). -/
def push {α : Type} (b : CircularBuffer α) (value : α) : CircularBuffer α :=
  { b with
    data := arrayAssign b.data b.index (some value)
    index := (b.index + 1) % b.size }

/-- Method `get(index)`: `this.data[(this.index + index) % this.size]`.  The JavaScript
`%` keeps the sign of the dividend, which is `Int.tmod`. -/
def get {α : Type} (b : CircularBuffer α) (index : Int) : Option α :=
  arrayRead b.data (Int.tmod ((b.index : Int) + index) (b.size : Int))

/-- A sequence of `push` calls, in order. -/
def pushAll {α : Type} (b : CircularBuffer α) (values : List α) : CircularBuffer α :=
  values.foldl push b

end CircularBuffer

/-! ## `Pedometer` (src/llama.js, lines 1–80) -/

/-- A JavaScript number as `updateMetrics` computes with it: a finite value
(`finite 0` is `+0`), negative zero, `Infinity`, `-Infinity` or `NaN`.  Finite
arithmetic is exact: rounding, overflow and underflow of doubles are not
modelled; the sign of a zero and the non-finite results are. -/
inductive JsNumber where
  | finite (q : ℚ)
  | negZero
  | posInfinity
  | negInfinity
  | NaN
deriving DecidableEq

namespace JsNumber

/-- The sign bit of a number (`true` is negative); unused for `NaN`. -/
def signBit (x : JsNumber) : Bool :=
  match x with
  | finite q => decide (q < 0)
  | negZero => true
  | posInfinity => false
  | negInfinity => true
  | NaN => false

/-- The value of a finite number or a zero; `none` for an infinity or `NaN`. -/
def value (x : JsNumber) : Option ℚ :=
  match x with
  | finite q => some q
  | negZero => some 0
  | _ => none

/-- The zero with the given sign. -/
def zero (negative : Bool) : JsNumber :=
  if negative then negZero else finite 0

/-- The infinity with the given sign. -/
def infinity (negative : Bool) : JsNumber :=
  if negative then negInfinity else posInfinity

/-- The number with value `q`; `negative` is the sign of the result, which
decides between the two zeros when `q = 0`. -/
def ofValue (negative : Bool) (q : ℚ) : JsNumber :=
  if q = 0 then zero negative else finite q

/-- JavaScript `x * y`: the sign is the exclusive or of the signs; a zero times
an infinity is `NaN`. -/
def times (x y : JsNumber) : JsNumber :=
  match x, y with
  | NaN, _ => NaN
  | _, NaN => NaN
  | x, y =>
    match x.value, y.value with
    | some a, some b => ofValue (xor x.signBit y.signBit) (a * b)
    | some a, none => if a = 0 then NaN else infinity (xor x.signBit y.signBit)
    | none, some b => if b = 0 then NaN else infinity (xor x.signBit y.signBit)
    | none, none => infinity (xor x.signBit y.signBit)

/-- JavaScript `x / y`: the sign is the exclusive or of the signs; a non-zero
number over a zero is an infinity, a finite number over an infinity is a zero,
and `0 / 0` and `Infinity / Infinity` are `NaN`. -/
def divide (x y : JsNumber) : JsNumber :=
  match x, y with
  | NaN, _ => NaN
  | _, NaN => NaN
  | x, y =>
    match x.value, y.value with
    | some a, some b =>
      if b = 0 then
        if a = 0 then NaN else infinity (xor x.signBit y.signBit)
      else ofValue (xor x.signBit y.signBit) (a / b)
    | some _, none => zero (xor x.signBit y.signBit)
    | none, some _ => infinity (xor x.signBit y.signBit)
    | none, none => NaN

/-- JavaScript `x >= c` for a finite `c`: false on `NaN`. -/
def ge (x : JsNumber) (c : ℚ) : Bool :=
  match x with
  | finite q => decide (c ≤ q)
  | negZero => decide (c ≤ 0)
  | posInfinity => true
  | negInfinity => false
  | NaN => false

end JsNumber

/-- The fields of a `Pedometer` object, for a finite `height`.  `dataRate` is
read by `updateMetrics` but assigned nowhere in the class: it is `none`
(`undefined`) unless the host sets it.  `distance` is never a divisor, so the
sign of a zero distance is not tracked. -/
structure State where
  height : ℚ
  steps : Nat
  distance : ℚ
  speed : JsNumber
  calories : JsNumber
  accelerationHistory : CircularBuffer ℚ
  lastPosition : Option (ℚ × ℚ)
  totalDistance : ℚ
  distanceThreshold : ℚ
  stepThreshold : ℚ
  stepSensitivity : ℚ
  dataRate : Option JsNumber

/-- Constructor `constructor(height)` (lines 2–14). -/
def State.new (height : ℚ) : State :=
  { height := height
    steps := 0
    distance := 0
    speed := JsNumber.finite 0
    calories := JsNumber.finite 0
    accelerationHistory := CircularBuffer.new 5000
    lastPosition := none
    totalDistance := 0
    distanceThreshold := 1
    stepThreshold := 14 / 5
    stepSensitivity := 1 / 10
    dataRate := none }

/-- Method `calculateCalories(speed)`: `speed * 0.1` (lines 61–63). -/
def calculateCalories (speed : JsNumber) : JsNumber :=
  JsNumber.times speed (JsNumber.finite (1 / 10))

/-- The denominator `2 * this.dataRate` of `updateMetrics` (lines 37 and 57);
`2 * undefined` is `NaN`. -/
def elapsed (p : State) : JsNumber :=
  match p.dataRate with
  | none => JsNumber.NaN
  | some rate => JsNumber.times (JsNumber.finite 2) rate

/-- The local `stepsPer2s` of `updateMetrics`: `this.steps / (2 * this.dataRate)`
(line 37). -/
def stepsPer2s (p : State) : JsNumber :=
  JsNumber.divide (JsNumber.finite (p.steps : ℚ)) (elapsed p)

/-- The `if … else if …` chain of `updateMetrics` that assigns the local
`stride` (lines 38–54). -/
def strideFor (height : ℚ) (stepsPer2s : JsNumber) : ℚ :=
  if stepsPer2s.ge 8 then 6 / 5 * height
  else if stepsPer2s.ge 6 then height
  else if stepsPer2s.ge 5 then height / (6 / 5)
  else if stepsPer2s.ge 4 then height / 2
  else if stepsPer2s.ge 3 then height / 3
  else if stepsPer2s.ge 2 then height / 4
  else height / 5

/-- Method `updateMetrics()` (lines 36–59). -/
def updateMetrics (p : State) : State :=
  let stride := strideFor p.height (stepsPer2s p)
  let speed :=
    JsNumber.divide (JsNumber.times (JsNumber.finite (p.steps : ℚ)) (JsNumber.finite stride))
      (elapsed p)
  { p with
    distance := (p.steps : ℚ) * stride
    speed := speed
    calories := calculateCalories speed }

/-- Lines 17 and 20–23 of `detectSteps`: the push and the `if (stepDetected)`
statement, for a given value of the local `stepDetected`.  Lines 18–19, which
compute that local, are `filterData` and `detectStep`; the method as a whole is
`detectSteps` below. -/
def detectStepsGiven (stepDetected : Bool) (p : State) (accelData : ℚ) : State :=
  let p1 := { p with accelerationHistory := p.accelerationHistory.push accelData }
  if stepDetected then updateMetrics { p1 with steps := p1.steps + 1 } else p1

/-- The object after a sequence of executions of lines 17 and 20–23 on a new
`Pedometer(height)`, each with its detection outcome and its `accelData`. -/
def runDetections (height : ℚ) (inputs : List (Bool × ℚ)) : State :=
  inputs.foldl (fun p i => detectStepsGiven i.1 p i.2) (State.new height)

/-! ## `BarometerEnhancedStepCounter` (src/claude.js, lines 1–126) -/

/-- The record `this.options`, after the defaults and the caller's options are
merged. -/
structure Options where
  height : ℚ
  gyroThreshold : ℚ
  accThreshold : ℚ
  timeThreshold : ℚ
  pressureThreshold : ℚ

/-- The defaults of the constructor (lines 4–8). -/
def Options.defaults : Options :=
  { height := 170
    gyroThreshold := 3 / 2
    accThreshold := 6 / 5
    timeThreshold := 250
    pressureThreshold := 1 / 10 }

/-- A 3-component vector of a motion event. -/
structure Vec3 where
  x : ℚ
  y : ℚ
  z : ℚ

/-- A `devicemotion` event: each of the three vectors may be absent. -/
structure MotionEvent where
  rotationRate : Option Vec3
  acceleration : Option Vec3
  accelerationIncludingGravity : Option Vec3

/-- The fields of a `BarometerEnhancedStepCounter`.  `stepLength` is read by
`handleMotion`; the method that sets it (`updateHeightRelatedParams`) is elided
in the source, so its value is a constructor argument here. -/
structure StepCounter where
  options : Options
  steps : Nat
  distance : ℚ
  elevationGain : ℚ
  lastGyroMagnitude : ℚ
  lastAccMagnitude : ℚ
  lastPressure : Option ℚ
  isStepUp : Bool
  lastStepTime : ℚ
  gyroBuffer : List ℚ
  accBuffer : List ℚ
  pressureBuffer : List ℚ
  bufferSize : Nat
  stepLength : ℚ

/-- Constructor `constructor(options)` (lines 2–25). -/
def StepCounter.new (options : Options) (stepLength : ℚ) : StepCounter :=
  { options := options
    steps := 0
    distance := 0
    elevationGain := 0
    lastGyroMagnitude := 0
    lastAccMagnitude := 0
    lastPressure := none
    isStepUp := false
    lastStepTime := 0
    gyroBuffer := []
    accBuffer := []
    pressureBuffer := []
    bufferSize := 10
    stepLength := stepLength }

/-- The four locals that `isValidStep` reads and that are computed by the part
of its body elided in the source ("previous checks"). -/
structure StepChecks where
  isGyroOverThreshold : Bool
  isAccOverThreshold : Bool
  isTimeThresholdMet : Bool
  isCadenceReasonable : Bool

/-- What the class uses and the source does not contain: the library functions
`Math.sqrt` and `Math.exp` (not rational-valued), the methods `updateBuffer` and
`lowPassFilter`, and the elided checks of `isValidStep`. -/
structure Host where
  sqrt : ℚ → ℚ
  exp : ℚ → ℚ
  updateBuffer : Nat → List ℚ → ℚ → List ℚ
  lowPassFilter : List ℚ → ℚ
  previousChecks : StepCounter → ℚ → ℚ → ℚ → ℚ → StepChecks

/-- Method `estimatePressure(agx, agy, agz)` (lines 82–88). -/
def estimatePressure (H : Host) (agx agy agz : ℚ) : ℚ :=
  let g : ℚ := 981 / 100
  let pressureAtSeaLevel : ℚ := 101325 / 100
  let heightChange := (H.sqrt (agx * agx + agy * agy + agz * agz) - g) / g * (843 / 100)
  pressureAtSeaLevel * H.exp (-heightChange / 7000)

/-- Method `updateElevation(currentPressure)` (lines 90–101). -/
def updateElevation (s : StepCounter) (currentPressure : ℚ) : StepCounter :=
  match s.lastPressure with
  | none => s
  | some lastPressure =>
    let pressureChange := currentPressure - lastPressure
    if |pressureChange| > s.options.pressureThreshold then
      let elevationChange := pressureChange * (-(843 / 100))
      if elevationChange > 0 then
        { s with elevationGain := s.elevationGain + elevationChange }
      else s
    else s

/-- The local `pressureChange` of `isValidStep` (line 106). -/
def pressureChange (s : StepCounter) (pressure : ℚ) : ℚ :=
  match s.lastPressure with
  | some lastPressure => |pressure - lastPressure|
  | none => 0

/-- Method `isValidStep(gyroMagnitude, accMagnitude, pressure, timeSinceLastStep)`
(lines 103–119): the returned boolean and the object afterwards. -/
def isValidStep (H : Host) (s : StepCounter)
    (gyroMagnitude accMagnitude pressure timeSinceLastStep : ℚ) : Bool × StepCounter :=
  let c := H.previousChecks s gyroMagnitude accMagnitude pressure timeSinceLastStep
  let isPressureChangeSignificant : Bool :=
    decide (pressureChange s pressure > s.options.pressureThreshold)
  if c.isGyroOverThreshold && c.isAccOverThreshold && !s.isStepUp &&
      c.isTimeThresholdMet && c.isCadenceReasonable && isPressureChangeSignificant then
    (true, { s with isStepUp := true })
  else if decide (gyroMagnitude < s.options.gyroThreshold) && s.isStepUp then
    (false, { s with isStepUp := false })
  else (false, s)

/-- Lines 44–48 of `handleMotion`: the three vectors, or `none` when the method
returns at once (`!gx || !ax || !agx`: a vector is absent or its `x` is `0`). -/
def readSample (event : MotionEvent) : Option (Vec3 × Vec3 × Vec3) :=
  match event.rotationRate, event.acceleration, event.accelerationIncludingGravity with
  | some g, some a, some ag =>
    if g.x = 0 ∨ a.x = 0 ∨ ag.x = 0 then none else some (g, a, ag)
  | _, _, _ => none

/-- The three filtered signals of one sample. -/
structure Filtered where
  gyro : ℚ
  acc : ℚ
  pressure : ℚ

/-- Lines 50–59 of `handleMotion`: the magnitudes, the pressure estimate and the
three buffer updates. -/
def updateBuffers (H : Host) (s : StepCounter) (g a ag : Vec3) : StepCounter :=
  let gyroMagnitude := H.sqrt (g.x * g.x + g.y * g.y + g.z * g.z)
  let accMagnitude := H.sqrt (a.x * a.x + a.y * a.y + a.z * a.z)
  let pressure := estimatePressure H ag.x ag.y ag.z
  { s with
    gyroBuffer := H.updateBuffer s.bufferSize s.gyroBuffer gyroMagnitude
    accBuffer := H.updateBuffer s.bufferSize s.accBuffer accMagnitude
    pressureBuffer := H.updateBuffer s.bufferSize s.pressureBuffer pressure }

/-- Lines 62–64 of `handleMotion`: the low-pass filter on each buffer. -/
def filtered (H : Host) (s : StepCounter) : Filtered :=
  { gyro := H.lowPassFilter s.gyroBuffer
    acc := H.lowPassFilter s.accBuffer
    pressure := H.lowPassFilter s.pressureBuffer }

/-- Lines 69–75 of `handleMotion`: the body of the `if`, run when `isValidStep`
returned true. -/
def acceptStep (s : StepCounter) (filteredPressure now : ℚ) : StepCounter :=
  let s1 := { s with steps := s.steps + 1, distance := s.distance + s.stepLength }
  let s2 := updateElevation s1 filteredPressure
  { s2 with lastStepTime := now }

/-- Method `handleMotion(event)` (lines 43–80); `now` is the value of `Date.now()`. -/
def handleMotion (H : Host) (s : StepCounter) (now : ℚ) (event : MotionEvent) : StepCounter :=
  match readSample event with
  | none => s
  | some (g, a, ag) =>
    let s1 := updateBuffers H s g a ag
    let f := filtered H s1
    let timeSinceLastStep := now - s1.lastStepTime
    let r := isValidStep H s1 f.gyro f.acc f.pressure timeSinceLastStep
    let s2 := if r.1 then acceptStep r.2 f.pressure now else r.2
    { s2 with
      lastGyroMagnitude := f.gyro
      lastAccMagnitude := f.acc
      lastPressure := some f.pressure }

/-- A stream of events, each with the clock value at its delivery. -/
def handleMotions (H : Host) (s : StepCounter) (events : List (ℚ × MotionEvent)) :
    StepCounter :=
  events.foldl (fun st e => handleMotion H st e.1 e.2) s

/-- The filtered pressure that `handleMotion` passes to `isValidStep` for a
complete sample, and the object at that call. -/
def atValidation (H : Host) (s : StepCounter) (event : MotionEvent) :
    Option (StepCounter × Filtered) :=
  match readSample event with
  | none => none
  | some (g, a, ag) =>
    let s1 := updateBuffers H s g a ag
    some (s1, filtered H s1)

/-- The boolean that `isValidStep` returns for the sample inside `handleMotion`
(`false` when the sample is dropped and `isValidStep` is not called). -/
def accepted (H : Host) (s : StepCounter) (now : ℚ) (event : MotionEvent) : Bool :=
  match atValidation H s event with
  | none => false
  | some (s1, f) => (isValidStep H s1 f.gyro f.acc f.pressure (now - s1.lastStepTime)).1

/-- Along the stream, the `pressureChange` computed by every call of
`isValidStep` stays within `pressureThreshold`. -/
def pressureQuiet (H : Host) : StepCounter → List (ℚ × MotionEvent) → Prop
  | _, [] => True
  | s, e :: rest =>
    (match atValidation H s e.2 with
      | none => True
      | some (s1, f) => pressureChange s1 f.pressure ≤ s1.options.pressureThreshold) ∧
    pressureQuiet H (handleMotion H s e.1 e.2) rest

/-! ## A concrete host, for evaluating the definitions -/

/-- Rational square root, exact on squares of rationals (floor of the root of
numerator and denominator otherwise). -/
def ratSqrt (q : ℚ) : ℚ :=
  (Nat.sqrt q.num.toNat : ℚ) / (Nat.sqrt q.den : ℚ)

/-- Second-order Taylor polynomial of the exponential: exact at `0`. -/
def ratExp (q : ℚ) : ℚ :=
  1 + q + q * q / 2

/-- A host with a sliding window of `size` samples, the window mean as the
low-pass filter, and the threshold comparisons the names of the checks
suggest. -/
def sampleHost : Host :=
  { sqrt := ratSqrt
    exp := ratExp
    updateBuffer := fun size buffer value =>
      let b := buffer ++ [value]
      if b.length > size then b.drop 1 else b
    lowPassFilter := fun buffer =>
      if buffer.length = 0 then 0 else buffer.sum / (buffer.length : ℚ)
    previousChecks := fun s gyro acc _ dt =>
      { isGyroOverThreshold := decide (gyro > s.options.gyroThreshold)
        isAccOverThreshold := decide (acc > s.options.accThreshold)
        isTimeThresholdMet := decide (dt > s.options.timeThreshold)
        isCadenceReasonable := true } }

/-- A sample whose rotation rate and acceleration have magnitude `2` and whose
gravity-inclusive acceleration has magnitude `9.81` (pressure estimate
`1013.25`). -/
def walkEvent : MotionEvent :=
  { rotationRate := some { x := 2, y := 0, z := 0 }
    acceleration := some { x := 2, y := 0, z := 0 }
    accelerationIncludingGravity := some { x := 981 / 100, y := 0, z := 0 } }

/-- A counter in the `Up` phase whose previous filtered pressure is `1014.25`. -/
def upCounter : StepCounter :=
  { StepCounter.new Options.defaults (7 / 10) with
    isStepUp := true
    lastPressure := some (101425 / 100) }

/-- Two deliveries of `walkEvent`, one second apart. -/
def bounceStream : List (ℚ × MotionEvent) :=
  [(1000, walkEvent), (2000, walkEvent)]

/-! ## `Pedometer.calculateDistance` (src/llama.js, lines 65–79), over the reals -/

/-- The library function `Math.atan2(y, x)` on real arguments: the angle of the
point `(x, y)`, in `(-π, π]`. -/
noncomputable def atan2 (y x : ℝ) : ℝ :=
  if 0 < x then Real.arctan (y / x)
  else if x < 0 then
    if 0 ≤ y then Real.arctan (y / x) + Real.pi else Real.arctan (y / x) - Real.pi
  else if 0 < y then Real.pi / 2
  else if y < 0 then -(Real.pi / 2)
  else 0

/-- The local `a` of `calculateDistance` (lines 68–75); `Δlam` is the local
written with the Greek letter lambda in the source. -/
noncomputable def haversineTerm (lat1 lon1 lat2 lon2 : ℝ) : ℝ :=
  let φ1 := lat1 * Real.pi / 180
  let φ2 := lat2 * Real.pi / 180
  let Δφ := (lat2 - lat1) * Real.pi / 180
  let Δlam := (lon2 - lon1) * Real.pi / 180
  Real.sin (Δφ / 2) * Real.sin (Δφ / 2) +
    Real.cos φ1 * Real.cos φ2 * Real.sin (Δlam / 2) * Real.sin (Δlam / 2)

/-- Method `calculateDistance(lat1, lon1, lat2, lon2)` (lines 65–79) on real
numbers: `Math.sin`, `Math.cos`, `Math.sqrt` and `Math.atan2` are the real
functions and the arithmetic is exact.  The rounding of doubles is not part of
this definition: where the exact term `a` is `1` (antipodal points) the doubles
the code computes can give `a > 1`, and then `Math.sqrt(1 - a)` and the result
are `NaN`. -/
noncomputable def calculateDistance (lat1 lon1 lat2 lon2 : ℝ) : ℝ :=
  let R : ℝ := 6371000
  let a := haversineTerm lat1 lon1 lat2 lon2
  let c := 2 * atan2 (Real.sqrt a) (Real.sqrt (1 - a))
  R * c

/-! ## `Pedometer.filterData`, `detectStep` and `detectSteps` -/

/-- The position that `get(index)` reads in `data`:
`(this.index + index) % this.size`, with the JavaScript remainder. -/
def CircularBuffer.slot {α : Type} (b : CircularBuffer α) (index : Int) : Int :=
  Int.tmod ((b.index : Int) + index) (b.size : Int)

/-- An exception thrown by the JavaScript runtime. -/
inductive JsError where
  | typeError
deriving DecidableEq

/-- Method `filterData(data)` (lines 26–29) on the argument that `detectSteps`
passes, the `CircularBuffer` `this.accelerationHistory`.  The body evaluates
`data.map(...)`; class `CircularBuffer` defines only `push` and `get`, so
`data.map` is `undefined` and the call throws a `TypeError` before the callback
(with its recursive call `this.filterData(data.shift())`) is run. -/
def filterData (_data : CircularBuffer ℚ) : Except JsError ℚ :=
  Except.error JsError.typeError

/-- Method `detectStep(data)` (lines 31–34) for a number `data`; when
`get(-1)` is `undefined` the difference is `NaN` and the comparison is false. -/
def detectStep (p : State) (data : ℚ) : Bool :=
  decide (data > p.stepThreshold) &&
    (match p.accelerationHistory.get (-1) with
      | some previous => decide (data - previous > p.stepSensitivity)
      | none => false)

/-- Method `detectSteps(accelData)` (lines 16–24): the push, then `filterData`
and `detectStep` deciding the local `stepDetected`, then the `if` statement. -/
def detectSteps (p : State) (accelData : ℚ) : Except JsError State :=
  let p1 := { p with accelerationHistory := p.accelerationHistory.push accelData }
  match filterData p1.accelerationHistory with
  | Except.error e => Except.error e
  | Except.ok filteredData =>
    Except.ok (detectStepsGiven (detectStep p1 filteredData) p accelData)

/-- A `Pedometer` with one step whose host has set `dataRate = -1`. -/
def negativeRate : State :=
  { State.new 170 with steps := 1, dataRate := some (JsNumber.finite (-1)) }

/-- A `Pedometer` with one step whose host has set `dataRate = 0`. -/
def zeroRate : State :=
  { State.new 170 with steps := 1, dataRate := some (JsNumber.finite 0) }

/-- A `Pedometer` with one step whose host has set `dataRate = -0`. -/
def negZeroRate : State :=
  { State.new 170 with steps := 1, dataRate := some JsNumber.negZero }

/-! ## Sequences of `isValidStep` calls -/

/-- One call of `isValidStep`: the object at the call (its `isStepUp` is the one
left by the previous call) and the four arguments. -/
structure Call where
  obj : StepCounter
  gyroMagnitude : ℚ
  accMagnitude : ℚ
  pressure : ℚ
  timeSinceLastStep : ℚ

/-- The boolean returned by the call `c` made with `isStepUp = up`. -/
def returned (H : Host) (up : Bool) (c : Call) : Bool :=
  (isValidStep H { c.obj with isStepUp := up } c.gyroMagnitude c.accMagnitude c.pressure
    c.timeSinceLastStep).1

/-- The value of `isStepUp` after the call `c` made with `isStepUp = up`. -/
def flagNext (H : Host) (up : Bool) (c : Call) : Bool :=
  (isValidStep H { c.obj with isStepUp := up } c.gyroMagnitude c.accMagnitude c.pressure
    c.timeSinceLastStep).2.isStepUp

/-- The value of `isStepUp` after a sequence of calls, starting from `up`. -/
def flagAfter (H : Host) (up : Bool) (calls : List Call) : Bool :=
  calls.foldl (flagNext H) up

/-- The call has a gyro magnitude strictly below `gyroThreshold`. -/
def belowGyro (c : Call) : Prop :=
  c.gyroMagnitude < c.obj.options.gyroThreshold

/-- A call of `isValidStep` on `upCounter`-like defaults with the given gyro
magnitude and a pressure of `1013.25`. -/
def callWith (gyro : ℚ) : Call :=
  { obj := { StepCounter.new Options.defaults (7 / 10) with lastPressure := some (101425 / 100) }
    gyroMagnitude := gyro
    accMagnitude := 2
    pressure := 101325 / 100
    timeSinceLastStep := 500 }

end Pedometer

namespace Pedometer

/-! ## Ring-buffer invariant -/

theorem CircularBuffer.pushAll_append {α : Type} (b : CircularBuffer α) (xs : List α) (v : α) :
    b.pushAll (xs ++ [v]) = (b.pushAll xs).push v := by
  simp [CircularBuffer.pushAll, List.foldl_append]

theorem mod_ne_of_lt_of_lt {n j m : Nat} (h1 : j < m) (h2 : m < j + n) : j % n ≠ m % n := by
  intro h
  have hd : n ∣ m - j := (Nat.modEq_iff_dvd' h1.le).1 h
  have := Nat.le_of_dvd (by omega) hd
  omega

/-- State of a buffer of capacity `n ≥ 1` after the pushes `xs`: fields `size`
and `data.length` stay `n`, the write index is `xs.length % n`, and each of the
last `n` pushed values sits in the slot given by its position modulo `n`. -/
theorem CircularBuffer.pushAll_inv {α : Type} (n : Nat) (hn : 0 < n) (xs : List α) :
    ((CircularBuffer.new n).pushAll xs).size = n ∧
    ((CircularBuffer.new n).pushAll xs).data.length = n ∧
    ((CircularBuffer.new n).pushAll xs).index = xs.length % n ∧
    ∀ j, j < xs.length → xs.length ≤ j + n →
      ((CircularBuffer.new n).pushAll xs).data[j % n]? = some xs[j]? := by
  induction xs using List.reverseRecOn with
  | nil => simp [CircularBuffer.pushAll, CircularBuffer.new]
  | append_singleton xs v ih =>
    obtain ⟨hs, hl, hi, hd⟩ := ih
    rw [CircularBuffer.pushAll_append]
    have hlt : xs.length % n < n := Nat.mod_lt _ hn
    have hdata : ((CircularBuffer.new n).pushAll xs |>.push v).data
        = ((CircularBuffer.new n).pushAll xs).data.set (xs.length % n) (some v) := by
      simp [CircularBuffer.push, arrayAssign, hi, hl, hlt]
    refine ⟨by simp [CircularBuffer.push, hs], by simp [hdata, hl], ?_, ?_⟩
    · simp [CircularBuffer.push, hs, hi]
    · intro j hj hjn
      rw [hdata]
      simp only [List.length_append, List.length_singleton] at hj hjn
      by_cases hjm : j = xs.length
      · subst hjm
        simp [List.getElem?_set, hl, hlt]
      · have hj' : j < xs.length := by omega
        have hne : xs.length % n ≠ j % n := (mod_ne_of_lt_of_lt hj' (by omega)).symm
        rw [List.getElem?_set_ne hne, hd j hj' (by omega)]
        simp [List.getElem?_append_left hj']

theorem CircularBuffer.get_of_nonneg {α : Type} (b : CircularBuffer α) (t : Nat) :
    b.get (t : Int) = (b.data[(b.index + t) % b.size]?).join := by
  have h : Int.tmod ((b.index : Int) + (t : Int)) (b.size : Int)
      = (((b.index + t) % b.size : Nat) : Int) := by
    rw [Int.ofNat_tmod]; push_cast; rfl
  unfold CircularBuffer.get arrayRead
  rw [h, if_neg (by omega), Int.toNat_ofNat]

/-! ## Claims on the ring buffer -/

/-- C1 (as stated, refuted): in a buffer of capacity 2, after the pushes `1, 2`
the call `get(0)` returns `1`, not the most recently pushed value `2`. -/
theorem C1_get_zero_not_most_recent :
    ((CircularBuffer.new 2).pushAll [(1 : Nat), 2]).get 0 = some 1 ∧
    ((CircularBuffer.new 2).pushAll [(1 : Nat), 2]).get 0 ≠ [(1 : Nat), 2].getLast? := by
  decide

/-- C1 (amended): for a buffer of capacity `n ≥ 1` and `n + k` pushed values,
`get(0)` after the last push returns the oldest value still stored, the one at
position `k` of the sequence (pushed `n - 1` pushes before the last one); it is
the most recently pushed value when `n = 1`. -/
theorem C1_get_zero_oldest {α : Type} (n k : Nat) (xs : List α) (hn : 1 ≤ n)
    (hlen : xs.length = n + k) :
    ((CircularBuffer.new n).pushAll xs).get 0 = xs[k]? ∧
    (n = 1 → ((CircularBuffer.new n).pushAll xs).get 0 = xs.getLast?) := by
  obtain ⟨hs, _, hi, hd⟩ := CircularBuffer.pushAll_inv n hn xs
  have h0 : ((CircularBuffer.new n).pushAll xs).get 0 = xs[k]? := by
    have := CircularBuffer.get_of_nonneg ((CircularBuffer.new n).pushAll xs) 0
    simp only [Nat.cast_zero, Nat.add_zero] at this
    rw [this, hs, hi, Nat.mod_mod, hlen, Nat.add_mod_left, hd k (by omega) (by omega)]
    rfl
  refine ⟨h0, ?_⟩
  intro h1
  rw [h0, List.getLast?_eq_getElem?]
  congr 1
  omega

/-- C1 (amended), at capacity 3 with 5 pushes: `get(0)` is the third value. -/
theorem C1_get_zero_oldest_witness :
    ((CircularBuffer.new 3).pushAll [10, 20, 30, 40, 50]).get 0 = [10, 20, 30, 40, 50][2]? ∧
    ((3 : Nat) = 1 →
      ((CircularBuffer.new 3).pushAll [10, 20, 30, 40, 50]).get 0
        = [10, 20, 30, 40, 50].getLast?) :=
  C1_get_zero_oldest 3 2 [10, 20, 30, 40, 50] (by decide) (by decide)

theorem exists_pos_in_window (n a i : Nat) (hi : i < n) :
    ∃ j, a ≤ j ∧ j < a + n ∧ j % n = i := by
  have hda : n * (a / n) + a % n = a := Nat.div_add_mod a n
  have hr : a % n < n := Nat.mod_lt _ (by omega)
  by_cases h : a % n ≤ i
  · refine ⟨n * (a / n) + i, by omega, by omega, ?_⟩
    rw [Nat.mul_add_mod, Nat.mod_eq_of_lt hi]
  · refine ⟨n * (a / n) + n + i, by omega, by omega, ?_⟩
    rw [Nat.add_assoc, Nat.mul_add_mod, Nat.add_mod_left, Nat.mod_eq_of_lt hi]

/-- C2: for a buffer of capacity `n ≥ 1` and any sequence `xs` of pushes, the
backing store keeps length `n` and the write index stays below `n`; once at
least `n` values were pushed, the value pushed at position `j` (for each of the
last `n` positions) sits in slot `j mod n`, every slot holds one of these
values, and a further push writes the slot of the oldest stored value and no
other slot. -/
theorem C2_ring_invariant {α : Type} (n : Nat) (xs : List α) (hn : 1 ≤ n) :
    ((CircularBuffer.new n).pushAll xs).size = n ∧
    ((CircularBuffer.new n).pushAll xs).data.length = n ∧
    ((CircularBuffer.new n).pushAll xs).index < n ∧
    (n ≤ xs.length →
      (∀ j, xs.length - n ≤ j → j < xs.length →
        ((CircularBuffer.new n).pushAll xs).data[j % n]? = some xs[j]?) ∧
      (∀ i, i < n → ∃ j, xs.length - n ≤ j ∧ j < xs.length ∧ j % n = i ∧
        ((CircularBuffer.new n).pushAll xs).data[i]? = some xs[j]?) ∧
      (∀ v : α,
        ((CircularBuffer.new n).pushAll xs).data[((CircularBuffer.new n).pushAll xs).index]?
          = some xs[xs.length - n]? ∧
        (((CircularBuffer.new n).pushAll xs).push v).data[
            ((CircularBuffer.new n).pushAll xs).index]? = some (some v) ∧
        (((CircularBuffer.new n).pushAll xs).push v).data.length = n ∧
        ∀ i, i ≠ ((CircularBuffer.new n).pushAll xs).index →
          (((CircularBuffer.new n).pushAll xs).push v).data[i]?
            = ((CircularBuffer.new n).pushAll xs).data[i]?)) := by
  obtain ⟨hs, hl, hi, hd⟩ := CircularBuffer.pushAll_inv n hn xs
  have hlt : xs.length % n < n := Nat.mod_lt _ hn
  refine ⟨hs, hl, by omega, ?_⟩
  intro hge
  refine ⟨fun j h1 h2 => hd j h2 (by omega), ?_, ?_⟩
  · intro i hin
    obtain ⟨j, hj1, hj2, hj3⟩ := exists_pos_in_window n (xs.length - n) i hin
    refine ⟨j, hj1, by omega, hj3, ?_⟩
    rw [← hj3]
    exact hd j (by omega) (by omega)
  · intro v
    have hdata : (((CircularBuffer.new n).pushAll xs).push v).data
        = ((CircularBuffer.new n).pushAll xs).data.set (xs.length % n) (some v) := by
      simp [CircularBuffer.push, arrayAssign, hi, hl, hlt]
    have hmod : (xs.length - n) % n = xs.length % n := by
      conv_rhs => rw [← Nat.sub_add_cancel hge]
      rw [Nat.add_mod_right]
    refine ⟨?_, ?_, ?_, ?_⟩
    · rw [hi, ← hmod]
      exact hd (xs.length - n) (by omega) (by omega)
    · rw [hdata, hi]
      simp [List.getElem?_set, hl, hlt]
    · rw [hdata]; simp [hl]
    · intro i hne
      rw [hdata, List.getElem?_set_ne]
      rw [hi] at hne
      exact fun h => hne h.symm

/-- C2 at capacity 3 with the 5 pushes `10, …, 50`. -/
theorem C2_ring_invariant_witness :
    ((CircularBuffer.new 3).pushAll [10, 20, 30, 40, 50]).data = [some 40, some 50, some 30] ∧
    ((CircularBuffer.new 3).pushAll [10, 20, 30, 40, 50]).index = 2 ∧
    ((CircularBuffer.new 3).pushAll [10, 20, 30, 40, 50]).data.length = 3 :=
  ⟨by decide, by decide, (C2_ring_invariant 3 [10, 20, 30, 40, 50] (by decide)).2.1⟩

/-! ## Step detector and elevation tracker: basic facts -/

theorem isValidStep_fields (H : Host) (s : StepCounter) (g a p dt : ℚ) :
    (isValidStep H s g a p dt).2.steps = s.steps ∧
    (isValidStep H s g a p dt).2.elevationGain = s.elevationGain ∧
    (isValidStep H s g a p dt).2.lastPressure = s.lastPressure ∧
    (isValidStep H s g a p dt).2.options = s.options := by
  dsimp only [isValidStep]
  split_ifs <;> simp

theorem updateElevation_fields (s : StepCounter) (p : ℚ) :
    (updateElevation s p).steps = s.steps ∧
    (updateElevation s p).lastPressure = s.lastPressure ∧
    (updateElevation s p).options = s.options := by
  unfold updateElevation
  split
  · simp
  · dsimp only
    split_ifs <;> simp

theorem updateElevation_mono (s : StepCounter) (p : ℚ) :
    s.elevationGain ≤ (updateElevation s p).elevationGain := by
  unfold updateElevation
  split
  · exact le_refl _
  · dsimp only
    split_ifs with h1 h2
    · simp only
      linarith
    · exact le_refl _
    · exact le_refl _

/-- The elevation gain after `updateElevation` depends on the object only
through `lastPressure`, `options` and the gain before. -/
theorem updateElevation_congr (s t : StepCounter) (p : ℚ)
    (h1 : s.lastPressure = t.lastPressure) (h2 : s.options = t.options)
    (h3 : s.elevationGain = t.elevationGain) :
    (updateElevation s p).elevationGain = (updateElevation t p).elevationGain := by
  unfold updateElevation
  rw [h1]
  cases t.lastPressure with
  | none => simpa using h3
  | some last =>
    simp only [h2]
    split_ifs <;> simp [h3]

theorem handleMotion_of_dropped (H : Host) (s : StepCounter) (now : ℚ) (event : MotionEvent)
    (h : readSample event = none) : handleMotion H s now event = s := by
  simp [handleMotion, h]

theorem handleMotion_steps (H : Host) (s : StepCounter) (now : ℚ) (event : MotionEvent) :
    (handleMotion H s now event).steps
      = s.steps + (if accepted H s now event then 1 else 0) := by
  unfold handleMotion accepted atValidation
  cases hr : readSample event with
  | none => simp
  | some v =>
    obtain ⟨g, a, ag⟩ := v
    simp only
    split_ifs with h
    · simp [acceptStep, (updateElevation_fields _ _).1, (isValidStep_fields _ _ _ _ _ _).1,
        updateBuffers]
    · simp [(isValidStep_fields _ _ _ _ _ _).1, updateBuffers]

theorem handleMotion_gain (H : Host) (s : StepCounter) (now : ℚ) (event : MotionEvent) :
    (handleMotion H s now event).elevationGain
      = match atValidation H s event with
        | none => s.elevationGain
        | some (_, f) =>
          if accepted H s now event then (updateElevation s f.pressure).elevationGain
          else s.elevationGain := by
  unfold handleMotion accepted atValidation
  cases hr : readSample event with
  | none => simp
  | some v =>
    obtain ⟨g, a, ag⟩ := v
    simp only
    split_ifs with h
    · simp only [acceptStep]
      apply updateElevation_congr
      · simp [(isValidStep_fields _ _ _ _ _ _).2.2.1, updateBuffers]
      · simp [(isValidStep_fields _ _ _ _ _ _).2.2.2, updateBuffers]
      · simp [(isValidStep_fields _ _ _ _ _ _).2.1, updateBuffers]
    · simp [(isValidStep_fields _ _ _ _ _ _).2.1, updateBuffers]

theorem handleMotions_cons (H : Host) (s : StepCounter) (e : ℚ × MotionEvent)
    (rest : List (ℚ × MotionEvent)) :
    handleMotions H s (e :: rest) = handleMotions H (handleMotion H s e.1 e.2) rest := rfl

theorem isValidStep_quiet (H : Host) (s : StepCounter) (g a p dt : ℚ)
    (h : pressureChange s p ≤ s.options.pressureThreshold) :
    (isValidStep H s g a p dt).1 = false := by
  unfold isValidStep
  have hs : decide (pressureChange s p > s.options.pressureThreshold) = false := by
    simpa using h
  simp [hs]
  split_ifs <;> rfl

theorem handleMotions_quiet (H : Host) (events : List (ℚ × MotionEvent)) :
    ∀ s, pressureQuiet H s events → (handleMotions H s events).steps = s.steps := by
  induction events with
  | nil => intro s _; rfl
  | cons e rest ih =>
    intro s hq
    obtain ⟨h1, h2⟩ := hq
    rw [handleMotions_cons, ih _ h2, handleMotion_steps]
    have : accepted H s e.1 e.2 = false := by
      unfold accepted
      cases hv : atValidation H s e.2 with
      | none => rfl
      | some v =>
        obtain ⟨s1, f⟩ := v
        rw [hv] at h1
        exact isValidStep_quiet H s1 _ _ _ _ h1
    simp [this]

/-! ## Evaluation of the concrete host -/

theorem ratSqrt_mul_self (q : ℚ) (hq : 0 ≤ q) : ratSqrt (q * q) = q := by
  unfold ratSqrt
  have hn : 0 ≤ q.num := Rat.num_nonneg.2 hq
  rw [Rat.mul_self_num, Rat.mul_self_den]
  have hm : (q.num * q.num).toNat = q.num.toNat * q.num.toNat := by
    obtain ⟨k, hk⟩ := Int.eq_ofNat_of_zero_le hn
    rw [hk]
    rfl
  rw [hm, Nat.sqrt_eq, Nat.sqrt_eq]
  have h2 : ((q.num.toNat : ℕ) : ℚ) = (q.num : ℚ) := by
    have hz : ((q.num.toNat : ℕ) : ℤ) = q.num := Int.toNat_of_nonneg hn
    exact_mod_cast congrArg (fun z : ℤ => (z : ℚ)) hz
  rw [h2]
  exact Rat.num_div_den q

theorem sampleHost_sqrt_two : sampleHost.sqrt (2 * 2 + 0 * 0 + 0 * 0) = 2 := by
  rw [show (2 * 2 + 0 * 0 + 0 * 0 : ℚ) = 2 * 2 by norm_num]
  exact ratSqrt_mul_self 2 (by norm_num)

theorem sampleHost_pressure_at_rest :
    estimatePressure sampleHost (981 / 100) 0 0 = 101325 / 100 := by
  have h : sampleHost.sqrt (981 / 100 * (981 / 100) + 0 * 0 + 0 * 0) = 981 / 100 := by
    rw [show (981 / 100 * (981 / 100) + 0 * 0 + 0 * 0 : ℚ) = 981 / 100 * (981 / 100) by norm_num]
    exact ratSqrt_mul_self (981 / 100) (by norm_num)
  unfold estimatePressure
  simp only [h]
  norm_num [sampleHost, ratExp]

theorem readSample_walkEvent :
    readSample walkEvent
      = some ({ x := 2, y := 0, z := 0 }, { x := 2, y := 0, z := 0 },
          { x := 981 / 100, y := 0, z := 0 }) := by
  norm_num [readSample, walkEvent]

theorem atValidation_walkEvent (s : StepCounter) (hb : s.pressureBuffer = [] ∨
    s.pressureBuffer = [101325 / 100]) (hs : s.bufferSize = 10) :
    ∃ s1 f, atValidation sampleHost s walkEvent = some (s1, f) ∧
      f.pressure = 101325 / 100 ∧ s1.lastPressure = s.lastPressure ∧
      s1.options = s.options ∧ s1.isStepUp = s.isStepUp ∧
      s1.pressureBuffer = s.pressureBuffer ++ [101325 / 100] := by
  refine ⟨updateBuffers sampleHost s { x := 2, y := 0, z := 0 } { x := 2, y := 0, z := 0 }
      { x := 981 / 100, y := 0, z := 0 }, _, by rw [atValidation, readSample_walkEvent],
    ?_, rfl, rfl, rfl, ?_⟩
  · simp only [filtered, updateBuffers, sampleHost_pressure_at_rest]
    rcases hb with hb | hb <;> rw [hb, hs] <;> simp [sampleHost]
  · simp only [updateBuffers, sampleHost_pressure_at_rest]
    rcases hb with hb | hb <;> rw [hb, hs] <;> norm_num [sampleHost]

theorem isValidStep_eq_with (H : Host) (s : StepCounter) (g a p dt : ℚ) :
    (isValidStep H s g a p dt).2
      = { s with isStepUp := (isValidStep H s g a p dt).2.isStepUp } := by
  dsimp only [isValidStep]
  split_ifs <;> rfl

theorem updateElevation_eq_with (s : StepCounter) (p : ℚ) :
    updateElevation s p
      = { s with elevationGain := (updateElevation s p).elevationGain } := by
  unfold updateElevation
  split
  · rfl
  · dsimp only
    split_ifs <;> rfl

theorem handleMotion_sample_fields (H : Host) (s s1 : StepCounter) (f : Filtered) (now : ℚ)
    (event : MotionEvent) (h : atValidation H s event = some (s1, f)) :
    (handleMotion H s now event).lastPressure = some f.pressure ∧
    (handleMotion H s now event).pressureBuffer = s1.pressureBuffer ∧
    (handleMotion H s now event).bufferSize = s.bufferSize ∧
    (handleMotion H s now event).options = s.options := by
  unfold atValidation at h
  unfold handleMotion
  cases hr : readSample event with
  | none => rw [hr] at h; cases h
  | some v =>
    obtain ⟨g, a, ag⟩ := v
    rw [hr] at h
    simp only [Option.some.injEq, Prod.mk.injEq] at h
    obtain ⟨h1, h2⟩ := h
    subst h1 h2
    simp only
    split_ifs with hacc
    · rw [acceptStep, updateElevation_eq_with, isValidStep_eq_with]
      simp [updateBuffers]
    · rw [isValidStep_eq_with]
      simp [updateBuffers]

theorem isValidStep_of_up (H : Host) (s : StepCounter) (g a p dt : ℚ)
    (hup : s.isStepUp = true) :
    (isValidStep H s g a p dt).1 = false ∧
    ((isValidStep H s g a p dt).2.isStepUp = false ↔ g < s.options.gyroThreshold) := by
  dsimp only [isValidStep]
  simp only [hup, Bool.not_true, Bool.and_false, Bool.false_and, Bool.and_true]
  by_cases hg : g < s.options.gyroThreshold
  · simp [hg]
  · simp [hg, hup]

theorem accepted_of_up (H : Host) (s : StepCounter) (now : ℚ) (event : MotionEvent)
    (hup : s.isStepUp = true) : accepted H s now event = false := by
  unfold accepted atValidation
  cases readSample event with
  | none => rfl
  | some v =>
    obtain ⟨g, a, ag⟩ := v
    exact (isValidStep_of_up H _ _ _ _ _ (by simpa [updateBuffers] using hup)).1

theorem handleMotions_steps_mono (H : Host) (events : List (ℚ × MotionEvent)) :
    ∀ s, s.steps ≤ (handleMotions H s events).steps := by
  induction events with
  | nil => intro s; exact le_refl _
  | cons e rest ih =>
    intro s
    rw [handleMotions_cons]
    refine le_trans ?_ (ih _)
    rw [handleMotion_steps]
    exact Nat.le_add_right _ _

theorem handleMotion_gain_mono (H : Host) (s : StepCounter) (now : ℚ) (event : MotionEvent) :
    s.elevationGain ≤ (handleMotion H s now event).elevationGain := by
  rw [handleMotion_gain]
  split
  · exact le_refl _
  · split_ifs
    · exact updateElevation_mono _ _
    · exact le_refl _

theorem handleMotions_gain_mono (H : Host) (events : List (ℚ × MotionEvent)) :
    ∀ s, s.elevationGain ≤ (handleMotions H s events).elevationGain := by
  induction events with
  | nil => intro s; exact le_refl _
  | cons e rest ih =>
    intro s
    rw [handleMotions_cons]
    exact le_trans (handleMotion_gain_mono H s e.1 e.2) (ih _)

theorem bounceStream_quiet :
    pressureQuiet sampleHost (StepCounter.new Options.defaults (7 / 10)) bounceStream := by
  obtain ⟨s1, f, h1, hf, hl, ho, _, hb⟩ :=
    atValidation_walkEvent (StepCounter.new Options.defaults (7 / 10)) (Or.inl rfl) rfl
  obtain ⟨k1, k2, k3, k4⟩ := handleMotion_sample_fields sampleHost _ s1 f 1000 walkEvent h1
  obtain ⟨s2, f2, h2, hf2, hl2, ho2, _, _⟩ :=
    atValidation_walkEvent
      (handleMotion sampleHost (StepCounter.new Options.defaults (7 / 10)) 1000 walkEvent)
      (Or.inr (by rw [k2, hb]; rfl)) (by rw [k3]; rfl)
  refine ⟨?_, ?_, trivial⟩
  · show (match atValidation sampleHost _ walkEvent with
      | none => True
      | some (s1, f) => pressureChange s1 f.pressure ≤ s1.options.pressureThreshold)
    rw [h1]
    simp only [pressureChange, hl, ho, StepCounter.new, Options.defaults]
    norm_num
  · show (match atValidation sampleHost _ walkEvent with
      | none => True
      | some (s1, f) => pressureChange s1 f.pressure ≤ s1.options.pressureThreshold)
    rw [h2]
    simp only [pressureChange, hl2, ho2, k1, k4, hf, hf2]
    norm_num [StepCounter.new, Options.defaults]

/-! ## Claims on the step detector and the elevation tracker -/

/-- C3: a call of `isValidStep` whose pressure change (line 106: the absolute
difference to `lastPressure`, or `0` while `lastPressure` is null) does not
exceed `pressureThreshold` returns false, whatever the elided gyro,
acceleration, time and cadence checks evaluate to; hence a stream of samples
on which this holds at every call leaves `steps` unchanged, at `0` from the
constructor. -/
theorem C3_no_step_without_pressure (H : Host) :
    (∀ s g a p dt, pressureChange s p ≤ s.options.pressureThreshold →
      (isValidStep H s g a p dt).1 = false) ∧
    (∀ s g a p dt last, s.lastPressure = some last →
      |p - last| ≤ s.options.pressureThreshold → (isValidStep H s g a p dt).1 = false) ∧
    (∀ s events, pressureQuiet H s events → (handleMotions H s events).steps = s.steps) ∧
    (∀ options stepLength events,
      pressureQuiet H (StepCounter.new options stepLength) events →
      (handleMotions H (StepCounter.new options stepLength) events).steps = 0) := by
  refine ⟨fun s g a p dt h => isValidStep_quiet H s g a p dt h, ?_,
    fun s events h => handleMotions_quiet H events s h, ?_⟩
  · intro s g a p dt last hl h
    apply isValidStep_quiet
    simpa [pressureChange, hl] using h
  · intro options stepLength events h
    rw [handleMotions_quiet H events _ h]
    rfl

/-- C3 on two samples of magnitude 2 (above both default thresholds) with a
constant pressure estimate: no step is counted. -/
theorem C3_no_step_without_pressure_witness :
    pressureQuiet sampleHost (StepCounter.new Options.defaults (7 / 10)) bounceStream ∧
    (handleMotions sampleHost (StepCounter.new Options.defaults (7 / 10)) bounceStream).steps
      = 0 :=
  ⟨bounceStream_quiet,
    (C3_no_step_without_pressure sampleHost).2.2.2 Options.defaults (7 / 10) bounceStream
      bounceStream_quiet⟩

/-- C4: a call of `isValidStep` made while `isStepUp` is true returns false, and
`isStepUp` is false afterwards exactly when the gyro magnitude passed in is
strictly below `gyroThreshold`; otherwise it is still true. -/
theorem C4_up_phase (H : Host) (s : StepCounter) (g a p dt : ℚ) (hup : s.isStepUp = true) :
    (isValidStep H s g a p dt).1 = false ∧
    ((isValidStep H s g a p dt).2.isStepUp = false ↔ g < s.options.gyroThreshold) ∧
    (¬ g < s.options.gyroThreshold → (isValidStep H s g a p dt).2.isStepUp = true) := by
  obtain ⟨h1, h2⟩ := isValidStep_of_up H s g a p dt hup
  refine ⟨h1, h2, ?_⟩
  intro hg
  cases hb : (isValidStep H s g a p dt).2.isStepUp with
  | true => rfl
  | false => exact absurd (h2.1 hb) hg

/-- C4 on the counter `upCounter` with gyro magnitude `1` (threshold `1.5`). -/
theorem C4_up_phase_witness :
    upCounter.isStepUp = true ∧
    (isValidStep sampleHost upCounter 1 2 1013 500).1 = false ∧
    ((isValidStep sampleHost upCounter 1 2 1013 500).2.isStepUp = false ↔
      (1 : ℚ) < upCounter.options.gyroThreshold) ∧
    (¬ (1 : ℚ) < upCounter.options.gyroThreshold →
      (isValidStep sampleHost upCounter 1 2 1013 500).2.isStepUp = true) :=
  ⟨rfl, C4_up_phase sampleHost upCounter 1 2 1013 500 rfl⟩

/-- C5: `handleMotion` leaves `steps` unchanged or increases it by exactly 1,
and increases it exactly when `isValidStep` returns true for the sample; `steps`
is non-decreasing along every stream.  In lines 20–23 of `Pedometer.detectSteps`
the counter likewise grows by 1 when a step is detected and is unchanged
otherwise. -/
theorem C5_steps_increment (H : Host) (s : StepCounter) (now : ℚ) (event : MotionEvent) :
    ((handleMotion H s now event).steps = s.steps ∨
      (handleMotion H s now event).steps = s.steps + 1) ∧
    ((handleMotion H s now event).steps = s.steps + 1 ↔ accepted H s now event = true) ∧
    ((handleMotion H s now event).steps = s.steps ↔ accepted H s now event = false) ∧
    (∀ events, s.steps ≤ (handleMotions H s events).steps) ∧
    (∀ (p : State) (accelData : ℚ),
      (detectStepsGiven true p accelData).steps = p.steps + 1 ∧
      (detectStepsGiven false p accelData).steps = p.steps) := by
  rw [handleMotion_steps]
  refine ⟨?_, ?_, ?_, fun events => handleMotions_steps_mono H events s, ?_⟩
  · cases accepted H s now event <;> simp
  · cases accepted H s now event <;> simp
  · cases accepted H s now event <;> simp
  · intro p accelData
    simp [detectStepsGiven, updateMetrics]

/-- C6: `updateElevation` never lowers `elevationGain`, for every current
pressure, `lastPressure` and threshold; so `elevationGain` is non-decreasing
over `handleMotion` and over every stream, and stays `≥ 0` from the
constructor. -/
theorem C6_elevation_gain_monotone (H : Host) (s : StepCounter) (currentPressure : ℚ) :
    s.elevationGain ≤ (updateElevation s currentPressure).elevationGain ∧
    (∀ now event, s.elevationGain ≤ (handleMotion H s now event).elevationGain) ∧
    (∀ events, s.elevationGain ≤ (handleMotions H s events).elevationGain) ∧
    (∀ options stepLength events,
      0 ≤ (handleMotions H (StepCounter.new options stepLength) events).elevationGain) :=
  ⟨updateElevation_mono s currentPressure,
    fun now event => handleMotion_gain_mono H s now event,
    fun events => handleMotions_gain_mono H events s,
    fun options stepLength events =>
      handleMotions_gain_mono H events (StepCounter.new options stepLength)⟩

/-- C7: for `updateElevation` with a non-null `lastPressure` and
`pressureThreshold ≥ 0`, a pressure change below `-pressureThreshold` adds
exactly `8.43 * (lastPressure - currentPressure)` to `elevationGain`, and a
current pressure at or above `lastPressure` leaves `elevationGain` unchanged. -/
theorem C7_elevation_sign (s : StepCounter) (currentPressure lastPressure : ℚ)
    (hlast : s.lastPressure = some lastPressure) (hthr : 0 ≤ s.options.pressureThreshold) :
    (currentPressure - lastPressure < -s.options.pressureThreshold →
      (updateElevation s currentPressure).elevationGain
        = s.elevationGain + 843 / 100 * (lastPressure - currentPressure)) ∧
    (lastPressure ≤ currentPressure →
      (updateElevation s currentPressure).elevationGain = s.elevationGain) := by
  unfold updateElevation
  rw [hlast]
  dsimp only
  constructor
  · intro h
    have habs : |currentPressure - lastPressure| > s.options.pressureThreshold := by
      rw [abs_of_neg (by linarith)]
      linarith
    have hpos : (currentPressure - lastPressure) * (-(843 / 100)) > 0 := by
      nlinarith
    rw [if_pos habs, if_pos hpos]
    simp only
    ring
  · intro h
    have hnot : ¬ (currentPressure - lastPressure) * (-(843 / 100)) > 0 := by
      nlinarith
    split_ifs <;> rfl

/-- C7 at `pressureThreshold = 0.1` and previous pressure `1014.25`: a drop of
`1.0` hPa adds `8.43` m, a rise of `1.0` hPa adds nothing. -/
theorem C7_elevation_sign_witness :
    (updateElevation upCounter (101325 / 100)).elevationGain = 843 / 100 ∧
    (updateElevation upCounter (101525 / 100)).elevationGain = 0 :=
  ⟨((C7_elevation_sign upCounter (101325 / 100) (101425 / 100) rfl
        (by norm_num [upCounter, StepCounter.new, Options.defaults])).1
        (by norm_num [upCounter, StepCounter.new, Options.defaults])).trans
      (by norm_num [upCounter, StepCounter.new]),
    (C7_elevation_sign upCounter (101525 / 100) (101425 / 100) rfl
        (by norm_num [upCounter, StepCounter.new, Options.defaults])).2 (by norm_num)⟩

/-- C8 (as stated, refuted): `upCounter` has a previous filtered pressure of
`1014.25`; the complete sample `walkEvent` has filtered pressure `1013.25`, a
drop of `1.0` hPa for which `updateElevation` adds `8.43` m; the sample is not
accepted as a step, and `handleMotion` leaves `elevationGain` at `0`. -/
theorem C8_no_update_without_step :
    upCounter.lastPressure = some (101425 / 100) ∧
    (atValidation sampleHost upCounter walkEvent).map (fun v => v.2.pressure)
      = some (101325 / 100) ∧
    accepted sampleHost upCounter 1000 walkEvent = false ∧
    (updateElevation upCounter (101325 / 100)).elevationGain = 843 / 100 ∧
    (handleMotion sampleHost upCounter 1000 walkEvent).elevationGain = 0 ∧
    (handleMotion sampleHost upCounter 1000 walkEvent).elevationGain
      ≠ (updateElevation upCounter (101325 / 100)).elevationGain := by
  obtain ⟨s1, f, h1, hf, _, _, _, _⟩ := atValidation_walkEvent upCounter (Or.inl rfl) rfl
  have hacc : accepted sampleHost upCounter 1000 walkEvent = false :=
    accepted_of_up sampleHost upCounter 1000 walkEvent rfl
  have hup : (updateElevation upCounter (101325 / 100)).elevationGain = 843 / 100 := by
    norm_num [updateElevation, upCounter, StepCounter.new, Options.defaults, abs_of_neg]
  have hm : (handleMotion sampleHost upCounter 1000 walkEvent).elevationGain = 0 := by
    rw [handleMotion_gain, h1]
    simp only [hacc]
    rfl
  refine ⟨rfl, by rw [h1]; simp [hf], hacc, hup, hm, ?_⟩
  rw [hm, hup]
  norm_num

/-- C8 (amended): for every complete sample processed by `handleMotion`, the
elevation update is applied exactly when the sample is accepted as a step:
then `elevationGain` becomes the value `updateElevation` gives for the filtered
pressure against the previous one, and when the sample is not accepted
`elevationGain` is unchanged. -/
theorem C8_update_only_on_step (H : Host) (s s1 : StepCounter) (f : Filtered) (now : ℚ)
    (event : MotionEvent) (h : atValidation H s event = some (s1, f)) :
    (accepted H s now event = true →
      (handleMotion H s now event).elevationGain
        = (updateElevation s f.pressure).elevationGain) ∧
    (accepted H s now event = false →
      (handleMotion H s now event).elevationGain = s.elevationGain) := by
  rw [handleMotion_gain, h]
  constructor <;> intro hacc <;> simp [hacc]

/-- C8 (amended) on `upCounter` and `walkEvent`: the sample is complete and
not accepted, and `elevationGain` is unchanged. -/
theorem C8_update_only_on_step_witness :
    accepted sampleHost upCounter 1000 walkEvent = false ∧
    (handleMotion sampleHost upCounter 1000 walkEvent).elevationGain
      = upCounter.elevationGain :=
  ⟨accepted_of_up sampleHost upCounter 1000 walkEvent rfl,
    (C8_update_only_on_step sampleHost upCounter
      (updateBuffers sampleHost upCounter { x := 2, y := 0, z := 0 } { x := 2, y := 0, z := 0 }
        { x := 981 / 100, y := 0, z := 0 })
      (filtered sampleHost
        (updateBuffers sampleHost upCounter { x := 2, y := 0, z := 0 }
          { x := 2, y := 0, z := 0 } { x := 981 / 100, y := 0, z := 0 }))
      1000 walkEvent (by rw [atValidation, readSample_walkEvent])).2
      (accepted_of_up sampleHost upCounter 1000 walkEvent rfl)⟩

/-! ## Claims on the stride model and the distance -/

theorem stepsPer2s_detectStepsGiven (p : State) (accelData : ℚ) :
    stepsPer2s (detectStepsGiven true p accelData)
      = JsNumber.divide (JsNumber.finite ((p.steps + 1 : Nat) : ℚ)) (elapsed p) := by
  simp [detectStepsGiven, updateMetrics, stepsPer2s, elapsed]

/-- C9: the stride chosen by `updateMetrics` for a cadence `c` is `1.2 * height`
when `c ≥ 8` (also for `Infinity`), `height` when `6 ≤ c < 8`, `height / 1.2`
when `5 ≤ c < 6`, `height / 2` when `4 ≤ c < 5`, `height / 3` when `3 ≤ c < 4`,
`height / 4` when `2 ≤ c < 3` and `height / 5` otherwise (also for `-Infinity`,
`-0` and `NaN`); a cadence of exactly 8, 6, 5, 4, 3 or 2 selects the multiplier
of its own band. -/
theorem C9_stride_bands (height c : ℚ) :
    (8 ≤ c → strideFor height (JsNumber.finite c) = 6 / 5 * height) ∧
    (6 ≤ c → c < 8 → strideFor height (JsNumber.finite c) = height) ∧
    (5 ≤ c → c < 6 → strideFor height (JsNumber.finite c) = height / (6 / 5)) ∧
    (4 ≤ c → c < 5 → strideFor height (JsNumber.finite c) = height / 2) ∧
    (3 ≤ c → c < 4 → strideFor height (JsNumber.finite c) = height / 3) ∧
    (2 ≤ c → c < 3 → strideFor height (JsNumber.finite c) = height / 4) ∧
    (c < 2 → strideFor height (JsNumber.finite c) = height / 5) ∧
    strideFor height JsNumber.NaN = height / 5 ∧
    strideFor height (JsNumber.finite 8) = 6 / 5 * height ∧
    strideFor height (JsNumber.finite 6) = height ∧
    strideFor height (JsNumber.finite 5) = height / (6 / 5) ∧
    strideFor height (JsNumber.finite 4) = height / 2 ∧
    strideFor height (JsNumber.finite 3) = height / 3 ∧
    strideFor height (JsNumber.finite 2) = height / 4 ∧
    (∀ p : State, (updateMetrics p).distance
      = (p.steps : ℚ) * strideFor p.height (stepsPer2s p)) ∧
    strideFor height JsNumber.posInfinity = 6 / 5 * height ∧
    strideFor height JsNumber.negInfinity = height / 5 ∧
    strideFor height JsNumber.negZero = height / 5 := by
  refine ⟨?_, ?_, ?_, ?_, ?_, ?_, ?_, ?_, ?_, ?_, ?_, ?_, ?_, ?_, fun p => rfl, ?_, ?_, ?_⟩
  · intro h
    simp [strideFor, JsNumber.ge, h]
  · intro h1 h2
    have e8 : ¬ (8 : ℚ) ≤ c := by linarith
    simp [strideFor, JsNumber.ge, h1, e8]
  · intro h1 h2
    have e8 : ¬ (8 : ℚ) ≤ c := by linarith
    have e6 : ¬ (6 : ℚ) ≤ c := by linarith
    simp [strideFor, JsNumber.ge, h1, e8, e6]
  · intro h1 h2
    have e8 : ¬ (8 : ℚ) ≤ c := by linarith
    have e6 : ¬ (6 : ℚ) ≤ c := by linarith
    have e5 : ¬ (5 : ℚ) ≤ c := by linarith
    simp [strideFor, JsNumber.ge, h1, e8, e6, e5]
  · intro h1 h2
    have e8 : ¬ (8 : ℚ) ≤ c := by linarith
    have e6 : ¬ (6 : ℚ) ≤ c := by linarith
    have e5 : ¬ (5 : ℚ) ≤ c := by linarith
    have e4 : ¬ (4 : ℚ) ≤ c := by linarith
    simp [strideFor, JsNumber.ge, h1, e8, e6, e5, e4]
  · intro h1 h2
    have e8 : ¬ (8 : ℚ) ≤ c := by linarith
    have e6 : ¬ (6 : ℚ) ≤ c := by linarith
    have e5 : ¬ (5 : ℚ) ≤ c := by linarith
    have e4 : ¬ (4 : ℚ) ≤ c := by linarith
    have e3 : ¬ (3 : ℚ) ≤ c := by linarith
    simp [strideFor, JsNumber.ge, h1, e8, e6, e5, e4, e3]
  · intro h2
    have e8 : ¬ (8 : ℚ) ≤ c := by linarith
    have e6 : ¬ (6 : ℚ) ≤ c := by linarith
    have e5 : ¬ (5 : ℚ) ≤ c := by linarith
    have e4 : ¬ (4 : ℚ) ≤ c := by linarith
    have e3 : ¬ (3 : ℚ) ≤ c := by linarith
    have e2 : ¬ (2 : ℚ) ≤ c := by linarith
    simp [strideFor, JsNumber.ge, e8, e6, e5, e4, e3, e2]
  · simp [strideFor, JsNumber.ge]
  · norm_num [strideFor, JsNumber.ge]
  · norm_num [strideFor, JsNumber.ge]
  · norm_num [strideFor, JsNumber.ge]
  · norm_num [strideFor, JsNumber.ge]
  · norm_num [strideFor, JsNumber.ge]
  · norm_num [strideFor, JsNumber.ge]
  · simp [strideFor, JsNumber.ge]
  · simp [strideFor, JsNumber.ge]
  · norm_num [strideFor, JsNumber.ge]

/-- C9 at height 170 and cadence 7 (band `6 ≤ c < 8`): the stride is 170. -/
theorem C9_stride_bands_witness : strideFor 170 (JsNumber.finite 7) = 170 :=
  (C9_stride_bands 170 7).2.1 (by norm_num) (by norm_num)

theorem runDetections_append (height : ℚ) (inputs : List (Bool × ℚ)) (i : Bool × ℚ) :
    runDetections height (inputs ++ [i])
      = detectStepsGiven i.1 (runDetections height inputs) i.2 := by
  simp [runDetections, List.foldl_append]

/-- Along every run from the constructor `dataRate` stays undefined, `height`
keeps its value and the distance is the step count times `height / 5`. -/
theorem runDetections_inv (height : ℚ) (inputs : List (Bool × ℚ)) :
    (runDetections height inputs).dataRate = none ∧
    (runDetections height inputs).height = height ∧
    (runDetections height inputs).distance
      = ((runDetections height inputs).steps : ℚ) * (height / 5) := by
  induction inputs using List.reverseRecOn with
  | nil => simp [runDetections, State.new]
  | append_singleton xs i ih =>
    obtain ⟨h1, h2, h3⟩ := ih
    rw [runDetections_append]
    cases hi : i.1 with
    | false => simpa [detectStepsGiven] using ⟨h1, h2, h3⟩
    | true =>
      refine ⟨by simpa [detectStepsGiven, updateMetrics] using h1,
        by simpa [detectStepsGiven, updateMetrics] using h2, ?_⟩
      simp [detectStepsGiven, updateMetrics, stepsPer2s, elapsed, h1, h2, JsNumber.divide,
        strideFor, JsNumber.ge]

/-- C10: for every step event processed by `Pedometer` (lines 20–23 of
`detectSteps`: `steps++`, then `updateMetrics()`), on an object reached from the
constructor by any sequence of such executions, `steps` grows by 1 and the new
distance equals the distance before the step plus the stride selected for the
current cadence; that stride is `height / 5` at every step, because `dataRate`
is never assigned and the cadence is `NaN`. -/
theorem C10_distance_adds_stride (height : ℚ) (inputs : List (Bool × ℚ)) (accelData : ℚ) :
    (detectStepsGiven true (runDetections height inputs) accelData).steps
      = (runDetections height inputs).steps + 1 ∧
    (detectStepsGiven true (runDetections height inputs) accelData).distance
      = (runDetections height inputs).distance
        + strideFor (runDetections height inputs).height
            (stepsPer2s (detectStepsGiven true (runDetections height inputs) accelData)) ∧
    strideFor (runDetections height inputs).height
        (stepsPer2s (detectStepsGiven true (runDetections height inputs) accelData))
      = height / 5 ∧
    (detectStepsGiven true (State.new 170) 3).distance = 34 ∧
    (detectStepsGiven true (detectStepsGiven true (State.new 170) 3) 3).distance = 68 := by
  obtain ⟨h1, h2, h3⟩ := runDetections_inv height inputs
  have hs : strideFor (runDetections height inputs).height
      (stepsPer2s (detectStepsGiven true (runDetections height inputs) accelData))
        = height / 5 := by
    rw [stepsPer2s_detectStepsGiven]
    simp [elapsed, h1, h2, JsNumber.divide, strideFor, JsNumber.ge]
  have e1 := runDetections_inv 170 [(true, 3)]
  have e2 := runDetections_inv 170 [(true, 3), (true, 3)]
  refine ⟨by simp [detectStepsGiven, updateMetrics], ?_, hs, ?_, ?_⟩
  · rw [hs, h3]
    have hd := (runDetections_inv height (inputs ++ [(true, accelData)])).2.2
    rw [runDetections_append] at hd
    rw [hd]
    simp [detectStepsGiven, updateMetrics]
    ring
  · have := e1.2.2
    simp only [runDetections, List.foldl] at this
    rw [this]
    norm_num [detectStepsGiven, updateMetrics, State.new]
  · have := e2.2.2
    simp only [runDetections, List.foldl] at this
    rw [this]
    norm_num [detectStepsGiven, updateMetrics, State.new]

/-! ## Claims on the geodesic distance -/

theorem haversineTerm_same (lat lon : ℝ) : haversineTerm lat lon lat lon = 0 := by
  simp [haversineTerm]

theorem haversineTerm_swap (lat1 lon1 lat2 lon2 : ℝ) :
    haversineTerm lat1 lon1 lat2 lon2 = haversineTerm lat2 lon2 lat1 lon1 := by
  unfold haversineTerm
  have h1 : (lat1 - lat2) * Real.pi / 180 / 2 = -((lat2 - lat1) * Real.pi / 180 / 2) := by ring
  have h2 : (lon1 - lon2) * Real.pi / 180 / 2 = -((lon2 - lon1) * Real.pi / 180 / 2) := by ring
  simp only [h1, h2, Real.sin_neg]
  ring

/-- C13: for every latitude and longitude (real numbers, degrees) the distance
from a point to itself is `0`; in particular `calculateDistance(0, 0, 0, 0) = 0`. -/
theorem C13_distance_same_point (lat lon : ℝ) :
    calculateDistance lat lon lat lon = 0 ∧ calculateDistance 0 0 0 0 = 0 := by
  have h : ∀ x y : ℝ, calculateDistance x y x y = 0 := by
    intro x y
    simp [calculateDistance, haversineTerm_same, atan2]
  exact ⟨h lat lon, h 0 0⟩

/-- C14: `calculateDistance` is symmetric under swapping the two points. -/
theorem C14_distance_symmetric (lat1 lon1 lat2 lon2 : ℝ) :
    calculateDistance lat1 lon1 lat2 lon2 = calculateDistance lat2 lon2 lat1 lon1 := by
  unfold calculateDistance
  rw [haversineTerm_swap]

theorem sin_half_mul_self (x : ℝ) :
    Real.sin (x / 2) * Real.sin (x / 2) = (1 - Real.cos x) / 2 := by
  have h1 := Real.cos_two_mul (x / 2)
  have h2 := Real.sin_sq_add_cos_sq (x / 2)
  rw [show 2 * (x / 2) = x by ring] at h1
  nlinarith

/-- The haversine term is half of one minus the cosine of the central angle. -/
theorem haversineTerm_eq (lat1 lon1 lat2 lon2 : ℝ) :
    haversineTerm lat1 lon1 lat2 lon2
      = (1 - (Real.sin (lat1 * Real.pi / 180) * Real.sin (lat2 * Real.pi / 180)
          + Real.cos (lat1 * Real.pi / 180) * Real.cos (lat2 * Real.pi / 180)
            * Real.cos ((lon2 - lon1) * Real.pi / 180))) / 2 := by
  unfold haversineTerm
  simp only
  have hd : (lat2 - lat1) * Real.pi / 180 = lat2 * Real.pi / 180 - lat1 * Real.pi / 180 := by
    ring
  have e1 := sin_half_mul_self ((lat2 - lat1) * Real.pi / 180)
  have e2 := sin_half_mul_self ((lon2 - lon1) * Real.pi / 180)
  rw [hd, Real.cos_sub] at e1
  rw [hd, e1, mul_assoc (Real.cos (lat1 * Real.pi / 180) * Real.cos (lat2 * Real.pi / 180)), e2]
  ring

theorem haversineTerm_bounds (lat1 lon1 lat2 lon2 : ℝ) :
    0 ≤ haversineTerm lat1 lon1 lat2 lon2 ∧ haversineTerm lat1 lon1 lat2 lon2 ≤ 1 := by
  rw [haversineTerm_eq]
  have a1 := Real.sin_sq_add_cos_sq (lat1 * Real.pi / 180)
  have a2 := Real.sin_sq_add_cos_sq (lat2 * Real.pi / 180)
  have b1 := Real.cos_le_one ((lon2 - lon1) * Real.pi / 180)
  have b2 := Real.neg_one_le_cos ((lon2 - lon1) * Real.pi / 180)
  generalize Real.sin (lat1 * Real.pi / 180) = s1 at *
  generalize Real.sin (lat2 * Real.pi / 180) = s2 at *
  generalize Real.cos (lat1 * Real.pi / 180) = c1 at *
  generalize Real.cos (lat2 * Real.pi / 180) = c2 at *
  generalize Real.cos ((lon2 - lon1) * Real.pi / 180) = cl at *
  have hcl : 0 ≤ c2 ^ 2 * (1 - cl ^ 2) :=
    mul_nonneg (sq_nonneg c2) (by nlinarith)
  constructor
  · nlinarith [sq_nonneg (s1 - s2), sq_nonneg (c1 - c2 * cl)]
  · nlinarith [sq_nonneg (s1 + s2), sq_nonneg (c1 + c2 * cl)]

theorem atan2_sin_cos (θ : ℝ) (h0 : 0 ≤ θ) (h1 : θ ≤ Real.pi / 2) :
    atan2 (Real.sin θ) (Real.cos θ) = θ := by
  unfold atan2
  rcases lt_or_eq_of_le h1 with hlt | heq
  · have hc : 0 < Real.cos θ :=
      Real.cos_pos_of_mem_Ioo ⟨by linarith [Real.pi_pos], hlt⟩
    rw [if_pos hc, ← Real.tan_eq_sin_div_cos, Real.arctan_tan (by linarith [Real.pi_pos]) hlt]
  · rw [heq, Real.cos_pi_div_two, Real.sin_pi_div_two]
    simp

theorem atan2_quadrant (y x : ℝ) (hy : 0 ≤ y) (hx : 0 ≤ x) :
    0 ≤ atan2 y x ∧ atan2 y x ≤ Real.pi / 2 := by
  unfold atan2
  have hpi := Real.pi_pos
  by_cases h1 : 0 < x
  · rw [if_pos h1]
    have hmono := Real.arctan_strictMono.monotone (div_nonneg hy hx)
    rw [Real.arctan_zero] at hmono
    exact ⟨hmono, (Real.arctan_lt_pi_div_two _).le⟩
  · rw [if_neg h1, if_neg (not_lt.2 hx)]
    by_cases h3 : 0 < y
    · rw [if_pos h3]
      constructor <;> linarith
    · rw [if_neg h3, if_neg (not_lt.2 hy)]
      constructor <;> linarith

theorem calculateDistance_equator (lon d : ℝ) (h0 : 0 ≤ d) (h1 : d ≤ 180) :
    calculateDistance 0 lon 0 (lon + d) = 6371000 * d * Real.pi / 180 := by
  have hpi := Real.pi_pos
  have hθ0 : 0 ≤ d * Real.pi / 180 / 2 := by positivity
  have hθ1 : d * Real.pi / 180 / 2 ≤ Real.pi / 2 := by nlinarith
  have ha : haversineTerm 0 lon 0 (lon + d)
      = Real.sin (d * Real.pi / 180 / 2) * Real.sin (d * Real.pi / 180 / 2) := by
    unfold haversineTerm
    simp
  have hs : 0 ≤ Real.sin (d * Real.pi / 180 / 2) :=
    Real.sin_nonneg_of_nonneg_of_le_pi hθ0 (by linarith)
  have hc : 0 ≤ Real.cos (d * Real.pi / 180 / 2) :=
    Real.cos_nonneg_of_neg_pi_div_two_le_of_le (by linarith) hθ1
  have h1a : 1 - Real.sin (d * Real.pi / 180 / 2) * Real.sin (d * Real.pi / 180 / 2)
      = Real.cos (d * Real.pi / 180 / 2) * Real.cos (d * Real.pi / 180 / 2) := by
    have := Real.sin_sq_add_cos_sq (d * Real.pi / 180 / 2)
    nlinarith
  unfold calculateDistance
  simp only
  rw [ha, h1a, Real.sqrt_mul_self hs, Real.sqrt_mul_self hc, atan2_sin_cos _ hθ0 hθ1]
  ring

/-- C15: for two points on the equator whose longitudes differ by `d` degrees,
`0 ≤ d ≤ 180`, the distance is `6371000 * d * π / 180` over the reals; for
`d = 1` it is within 1 m of 111195 m. -/
theorem C15_equator_distance (lon d : ℝ) (h0 : 0 ≤ d) (h1 : d ≤ 180) :
    calculateDistance 0 lon 0 (lon + d) = 6371000 * d * Real.pi / 180 ∧
    |calculateDistance 0 lon 0 (lon + 1) - 111195| < 1 := by
  refine ⟨calculateDistance_equator lon d h0 h1, ?_⟩
  rw [calculateDistance_equator lon 1 (by norm_num) (by norm_num), abs_lt]
  have hlo := Real.pi_gt_d6
  have hhi := Real.pi_lt_d6
  constructor <;> linarith

/-- C15 for the longitudes 10 and 11 on the equator. -/
theorem C15_equator_distance_witness :
    calculateDistance 0 10 0 (10 + 1) = 6371000 * 1 * Real.pi / 180 ∧
    |calculateDistance 0 10 0 (10 + 1) - 111195| < 1 :=
  C15_equator_distance 10 1 (by norm_num) (by norm_num)

/-- In exact real arithmetic the haversine term `a` of `calculateDistance`
satisfies `0 ≤ a ≤ 1` for all arguments, the result lies in `[0, π * 6371000]`,
and for antipodal points (`lat2 = -lat1`, `lon2 = lon1 + 180`) `a = 1` and the
result is `π * 6371000`.  At such points `1 - a` is `0`, the edge of the domain
of the square root. -/
theorem calculateDistance_real_range (lat1 lon1 lat2 lon2 : ℝ) :
    0 ≤ haversineTerm lat1 lon1 lat2 lon2 ∧
    haversineTerm lat1 lon1 lat2 lon2 ≤ 1 ∧
    0 ≤ 1 - haversineTerm lat1 lon1 lat2 lon2 ∧
    0 ≤ calculateDistance lat1 lon1 lat2 lon2 ∧
    calculateDistance lat1 lon1 lat2 lon2 ≤ Real.pi * 6371000 ∧
    calculateDistance lat1 lon1 (-lat1) (lon1 + 180) = Real.pi * 6371000 := by
  obtain ⟨ha0, ha1⟩ := haversineTerm_bounds lat1 lon1 lat2 lon2
  obtain ⟨hq0, hq1⟩ := atan2_quadrant
    (Real.sqrt (haversineTerm lat1 lon1 lat2 lon2))
    (Real.sqrt (1 - haversineTerm lat1 lon1 lat2 lon2))
    (Real.sqrt_nonneg _) (Real.sqrt_nonneg _)
  refine ⟨ha0, ha1, by linarith, ?_, ?_, ?_⟩
  · unfold calculateDistance
    simp only
    positivity
  · unfold calculateDistance
    simp only
    linarith
  · have hanti : haversineTerm lat1 lon1 (-lat1) (lon1 + 180) = 1 := by
      unfold haversineTerm
      simp only
      have e1 : (-lat1 - lat1) * Real.pi / 180 / 2 = -(lat1 * Real.pi / 180) := by ring
      have e2 : (lon1 + 180 - lon1) * Real.pi / 180 / 2 = Real.pi / 2 := by ring
      have e3 : -lat1 * Real.pi / 180 = -(lat1 * Real.pi / 180) := by ring
      rw [e1, e2, e3, Real.sin_neg, Real.cos_neg, Real.sin_pi_div_two]
      have := Real.sin_sq_add_cos_sq (lat1 * Real.pi / 180)
      nlinarith
    unfold calculateDistance
    simp only
    rw [hanti]
    have hpi := Real.pi_pos
    simp [atan2]
    ring

/-! ## Claims on dropped samples -/

/-- C11: for an event in which `rotationRate`, `acceleration` or
`accelerationIncludingGravity` is absent, `handleMotion` returns the object
unchanged: every field (`steps`, `distance`, `elevationGain`, `isStepUp`,
`lastStepTime`, the last magnitudes, `lastPressure` and the three buffers) keeps
its value. -/
theorem C11_incomplete_sample_dropped (H : Host) (s : StepCounter) (now : ℚ)
    (event : MotionEvent)
    (h : event.rotationRate = none ∨ event.acceleration = none ∨
      event.accelerationIncludingGravity = none) :
    handleMotion H s now event = s := by
  apply handleMotion_of_dropped
  unfold readSample
  rcases h with h | h | h
  · rw [h]
  · rw [h]
    cases event.rotationRate <;> rfl
  · rw [h]
    cases event.rotationRate <;> cases event.acceleration <;> rfl

/-- C11 on `upCounter` for an event without `acceleration`. -/
theorem C11_incomplete_sample_dropped_witness :
    handleMotion sampleHost upCounter 1000
      { rotationRate := some { x := 2, y := 0, z := 0 }
        acceleration := none
        accelerationIncludingGravity := some { x := 981 / 100, y := 0, z := 0 } }
      = upCounter :=
  C11_incomplete_sample_dropped sampleHost upCounter 1000 _ (Or.inr (Or.inl rfl))

/-- C19: `handleMotion` also returns the object unchanged for an event in which
all three vectors are present and the `x` component of `rotationRate`, of
`acceleration` or of `accelerationIncludingGravity` is `0`, whatever the `y` and
`z` components are. -/
theorem C19_zero_x_dropped (H : Host) (s : StepCounter) (now : ℚ) (g a ag : Vec3)
    (h : g.x = 0 ∨ a.x = 0 ∨ ag.x = 0) :
    handleMotion H s now
      { rotationRate := some g, acceleration := some a,
        accelerationIncludingGravity := some ag } = s := by
  apply handleMotion_of_dropped
  simp [readSample, h]

/-- C19 on `upCounter` for a rotation rate `(0, 3, 4)`. -/
theorem C19_zero_x_dropped_witness :
    handleMotion sampleHost upCounter 1000
      { rotationRate := some { x := 0, y := 3, z := 4 }
        acceleration := some { x := 2, y := 0, z := 0 }
        accelerationIncludingGravity := some { x := 981 / 100, y := 0, z := 0 } }
      = upCounter :=
  C19_zero_x_dropped sampleHost upCounter 1000 _ _ _ (Or.inl rfl)

/-! ## Claims on the metrics, the filter and relative reads -/

theorem JsNumber.times_finite (a b : ℚ) (h : a * b ≠ 0) :
    JsNumber.times (JsNumber.finite a) (JsNumber.finite b) = JsNumber.finite (a * b) := by
  simp [JsNumber.times, JsNumber.value, JsNumber.ofValue, h]

theorem JsNumber.two_times_zero :
    JsNumber.times (JsNumber.finite 2) (JsNumber.finite 0) = JsNumber.finite 0 := by
  simp [JsNumber.times, JsNumber.value, JsNumber.ofValue, JsNumber.zero, JsNumber.signBit]

theorem JsNumber.two_times_negZero :
    JsNumber.times (JsNumber.finite 2) JsNumber.negZero = JsNumber.negZero := by
  simp [JsNumber.times, JsNumber.value, JsNumber.ofValue, JsNumber.zero, JsNumber.signBit]

theorem JsNumber.divide_finite (a b : ℚ) (ha : a ≠ 0) (hb : b ≠ 0) :
    JsNumber.divide (JsNumber.finite a) (JsNumber.finite b) = JsNumber.finite (a / b) := by
  simp [JsNumber.divide, JsNumber.value, JsNumber.ofValue, ha, hb]

theorem JsNumber.divide_pos_zero (a : ℚ) (ha : 0 < a) :
    JsNumber.divide (JsNumber.finite a) (JsNumber.finite 0) = JsNumber.posInfinity := by
  simp [JsNumber.divide, JsNumber.value, JsNumber.infinity, JsNumber.signBit, ne_of_gt ha,
    not_lt.2 ha.le]

theorem JsNumber.divide_pos_negZero (a : ℚ) (ha : 0 < a) :
    JsNumber.divide (JsNumber.finite a) JsNumber.negZero = JsNumber.negInfinity := by
  simp [JsNumber.divide, JsNumber.value, JsNumber.infinity, JsNumber.signBit, ne_of_gt ha,
    not_lt.2 ha.le]

theorem calculateCalories_posInfinity :
    calculateCalories JsNumber.posInfinity = JsNumber.posInfinity := by
  simp [calculateCalories, JsNumber.times, JsNumber.value, JsNumber.infinity,
    JsNumber.signBit]

theorem calculateCalories_negInfinity :
    calculateCalories JsNumber.negInfinity = JsNumber.negInfinity := by
  simp [calculateCalories, JsNumber.times, JsNumber.value, JsNumber.infinity,
    JsNumber.signBit]

theorem calculateCalories_finite (q : ℚ) (hq : q ≠ 0) :
    calculateCalories (JsNumber.finite q) = JsNumber.finite (q * (1 / 10)) := by
  simp [calculateCalories, JsNumber.times, JsNumber.value, JsNumber.ofValue, hq]

theorem updateMetrics_speed (p : State) :
    (updateMetrics p).speed
      = JsNumber.divide
          (JsNumber.times (JsNumber.finite (p.steps : ℚ))
            (JsNumber.finite (strideFor p.height (stepsPer2s p))))
          (elapsed p) := rfl

/-- C12 (as stated, refuted): with one step, height 170 and `dataRate = -1` the
denominator `2 * dataRate` is `-2`, and `updateMetrics` stores the speed `-17`
and the calories `-1.7` in place of the previous `0`; with `dataRate = 0` it
stores `Infinity` for both, and with `dataRate = -0` it stores `-Infinity` for
both. -/
theorem C12_no_guard_on_denominator :
    elapsed negativeRate = JsNumber.finite (-2) ∧
    negativeRate.speed = JsNumber.finite 0 ∧
    negativeRate.calories = JsNumber.finite 0 ∧
    (updateMetrics negativeRate).speed = JsNumber.finite (-17) ∧
    (updateMetrics negativeRate).calories = JsNumber.finite (-17 / 10) ∧
    (updateMetrics negativeRate).speed ≠ negativeRate.speed ∧
    elapsed zeroRate = JsNumber.finite 0 ∧
    (updateMetrics zeroRate).speed = JsNumber.posInfinity ∧
    (updateMetrics zeroRate).calories = JsNumber.posInfinity ∧
    elapsed negZeroRate = JsNumber.negZero ∧
    (updateMetrics negZeroRate).distance = 34 ∧
    (updateMetrics negZeroRate).speed = JsNumber.negInfinity ∧
    (updateMetrics negZeroRate).calories = JsNumber.negInfinity := by
  have e1 : elapsed negativeRate = JsNumber.finite (-2) := by
    have := JsNumber.times_finite 2 (-1) (by norm_num)
    norm_num at this
    simpa [elapsed, negativeRate, State.new] using this
  have e2 : elapsed zeroRate = JsNumber.finite 0 := by
    simpa [elapsed, zeroRate, State.new] using JsNumber.two_times_zero
  have e3 : elapsed negZeroRate = JsNumber.negZero := by
    simpa [elapsed, negZeroRate, State.new] using JsNumber.two_times_negZero
  have s1 : strideFor negativeRate.height (stepsPer2s negativeRate) = 34 := by
    rw [stepsPer2s, e1, show ((negativeRate.steps : ℕ) : ℚ) = 1 by simp [negativeRate],
      JsNumber.divide_finite 1 (-2) (by norm_num) (by norm_num)]
    norm_num [strideFor, JsNumber.ge, negativeRate, State.new]
  have s2 : strideFor zeroRate.height (stepsPer2s zeroRate) = 204 := by
    rw [stepsPer2s, e2, show ((zeroRate.steps : ℕ) : ℚ) = 1 by simp [zeroRate],
      JsNumber.divide_pos_zero 1 (by norm_num)]
    norm_num [strideFor, JsNumber.ge, zeroRate, State.new]
  have s3 : strideFor negZeroRate.height (stepsPer2s negZeroRate) = 34 := by
    rw [stepsPer2s, e3, show ((negZeroRate.steps : ℕ) : ℚ) = 1 by simp [negZeroRate],
      JsNumber.divide_pos_negZero 1 (by norm_num)]
    norm_num [strideFor, JsNumber.ge, negZeroRate, State.new]
  have h1 : (updateMetrics negativeRate).speed = JsNumber.finite (-17) := by
    rw [updateMetrics_speed, s1, e1, show ((negativeRate.steps : ℕ) : ℚ) = 1 by
      simp [negativeRate], JsNumber.times_finite 1 34 (by norm_num),
      JsNumber.divide_finite _ _ (by norm_num) (by norm_num)]
    norm_num
  have h2 : (updateMetrics zeroRate).speed = JsNumber.posInfinity := by
    rw [updateMetrics_speed, s2, e2, show ((zeroRate.steps : ℕ) : ℚ) = 1 by
      simp [zeroRate], JsNumber.times_finite 1 204 (by norm_num),
      JsNumber.divide_pos_zero _ (by norm_num)]
  have h3 : (updateMetrics negZeroRate).speed = JsNumber.negInfinity := by
    rw [updateMetrics_speed, s3, e3, show ((negZeroRate.steps : ℕ) : ℚ) = 1 by
      simp [negZeroRate], JsNumber.times_finite 1 34 (by norm_num),
      JsNumber.divide_pos_negZero _ (by norm_num)]
  have c1 : (updateMetrics negativeRate).calories
      = calculateCalories (updateMetrics negativeRate).speed := rfl
  have c2 : (updateMetrics zeroRate).calories
      = calculateCalories (updateMetrics zeroRate).speed := rfl
  have c3 : (updateMetrics negZeroRate).calories
      = calculateCalories (updateMetrics negZeroRate).speed := rfl
  have d3 : (updateMetrics negZeroRate).distance
      = ((negZeroRate.steps : ℕ) : ℚ)
        * strideFor negZeroRate.height (stepsPer2s negZeroRate) := rfl
  refine ⟨e1, rfl, rfl, h1, ?_, ?_, e2, h2, ?_, e3, ?_, h3, ?_⟩
  · rw [c1, h1, calculateCalories_finite _ (by norm_num)]
    norm_num
  · rw [h1]
    norm_num [negativeRate, State.new]
  · rw [c2, h2, calculateCalories_posInfinity]
  · rw [d3, s3]
    norm_num [negZeroRate]
  · rw [c3, h3, calculateCalories_negInfinity]

/-- C12 (amended): `updateMetrics` has no guard on the denominator: it always
stores `speed = (steps * stride) / (2 * dataRate)` and `calories = speed * 0.1`.
With `steps * stride` positive: for a negative `dataRate` the speed is the
quotient, a negative number; for `dataRate = 0` speed and calories are both
`Infinity`; for `dataRate = -0` both are `-Infinity`. -/
theorem C12_speed_always_stored (p : State) :
    (updateMetrics p).speed
      = JsNumber.divide
          (JsNumber.times (JsNumber.finite (p.steps : ℚ))
            (JsNumber.finite (strideFor p.height (stepsPer2s p))))
          (elapsed p) ∧
    (updateMetrics p).calories = calculateCalories (updateMetrics p).speed ∧
    (∀ r : ℚ, p.dataRate = some (JsNumber.finite r) → r < 0 →
      0 < (p.steps : ℚ) * strideFor p.height (stepsPer2s p) →
      (updateMetrics p).speed
        = JsNumber.finite ((p.steps : ℚ) * strideFor p.height (stepsPer2s p) / (2 * r)) ∧
      (p.steps : ℚ) * strideFor p.height (stepsPer2s p) / (2 * r) < 0) ∧
    (p.dataRate = some (JsNumber.finite 0) →
      0 < (p.steps : ℚ) * strideFor p.height (stepsPer2s p) →
      (updateMetrics p).speed = JsNumber.posInfinity ∧
      (updateMetrics p).calories = JsNumber.posInfinity) ∧
    (p.dataRate = some JsNumber.negZero →
      0 < (p.steps : ℚ) * strideFor p.height (stepsPer2s p) →
      (updateMetrics p).speed = JsNumber.negInfinity ∧
      (updateMetrics p).calories = JsNumber.negInfinity) := by
  refine ⟨rfl, rfl, ?_, ?_, ?_⟩
  · intro r hr hneg hpos
    have hne : (2 * r) ≠ 0 := by linarith
    have he : elapsed p = JsNumber.finite (2 * r) := by
      rw [elapsed, hr]
      exact JsNumber.times_finite 2 r hne
    refine ⟨?_, div_neg_of_pos_of_neg hpos (by linarith)⟩
    rw [updateMetrics_speed, he, JsNumber.times_finite _ _ (ne_of_gt hpos),
      JsNumber.divide_finite _ _ (ne_of_gt hpos) hne]
  · intro hr hpos
    have he : elapsed p = JsNumber.finite 0 := by
      rw [elapsed, hr]
      exact JsNumber.two_times_zero
    have hs : (updateMetrics p).speed = JsNumber.posInfinity := by
      rw [updateMetrics_speed, he, JsNumber.times_finite _ _ (ne_of_gt hpos),
        JsNumber.divide_pos_zero _ hpos]
    refine ⟨hs, ?_⟩
    show calculateCalories (updateMetrics p).speed = JsNumber.posInfinity
    rw [hs, calculateCalories_posInfinity]
  · intro hr hpos
    have he : elapsed p = JsNumber.negZero := by
      rw [elapsed, hr]
      exact JsNumber.two_times_negZero
    have hs : (updateMetrics p).speed = JsNumber.negInfinity := by
      rw [updateMetrics_speed, he, JsNumber.times_finite _ _ (ne_of_gt hpos),
        JsNumber.divide_pos_negZero _ hpos]
    refine ⟨hs, ?_⟩
    show calculateCalories (updateMetrics p).speed = JsNumber.negInfinity
    rw [hs, calculateCalories_negInfinity]

/-- C12 (amended) on `negZeroRate`: speed and calories become `-Infinity`. -/
theorem C12_speed_always_stored_witness :
    negZeroRate.dataRate = some JsNumber.negZero ∧
    (updateMetrics negZeroRate).speed = JsNumber.negInfinity ∧
    (updateMetrics negZeroRate).calories = JsNumber.negInfinity :=
  ⟨rfl, (C12_speed_always_stored negZeroRate).2.2.2.2 rfl (by
    have e3 : elapsed negZeroRate = JsNumber.negZero := by
      simpa [elapsed, negZeroRate, State.new] using JsNumber.two_times_negZero
    rw [stepsPer2s, e3, show ((negZeroRate.steps : ℕ) : ℚ) = 1 by simp [negZeroRate],
      JsNumber.divide_pos_negZero 1 (by norm_num)]
    norm_num [strideFor, JsNumber.ge, negZeroRate, State.new])⟩

/-- C16 (the code at the failing input): for every `Pedometer` and every
`accelData`, `filterData` on the acceleration history throws a `TypeError`, so
`detectSteps` ends with that exception and no filtered value is returned. -/
theorem C16_filterData_throws (p : State) (accelData : ℚ) :
    filterData (p.accelerationHistory.push accelData) = Except.error JsError.typeError ∧
    detectSteps p accelData = Except.error JsError.typeError ∧
    detectSteps (State.new 170) 3 = Except.error JsError.typeError :=
  ⟨rfl, rfl, rfl⟩

/-- C17 (the code at the failing input): in a buffer of capacity 3 after the
pushes `1, 2, 3` the write index is `0`, and `get(-1)` reads position `-1`,
which is outside `0 .. 2`: the result is `undefined` although every slot holds a
value. -/
theorem C17_negative_read_out_of_range :
    ((CircularBuffer.new 3).pushAll [(1 : Nat), 2, 3]).index = 0 ∧
    ((CircularBuffer.new 3).pushAll [(1 : Nat), 2, 3]).data = [some 1, some 2, some 3] ∧
    ((CircularBuffer.new 3).pushAll [(1 : Nat), 2, 3]).slot (-1) = -1 ∧
    ((CircularBuffer.new 3).pushAll [(1 : Nat), 2, 3]).get (-1) = none := by
  decide

/-! ## Claims on sequences of `isValidStep` calls -/

theorem returned_true_iff (H : Host) (up : Bool) (c : Call) (h : returned H up c = true) :
    up = false ∧ flagNext H up c = true := by
  cases up with
  | true =>
    have := (isValidStep_of_up H { c.obj with isStepUp := true } c.gyroMagnitude
      c.accMagnitude c.pressure c.timeSinceLastStep rfl).1
    unfold returned at h
    rw [this] at h
    cases h
  | false =>
    refine ⟨rfl, ?_⟩
    unfold returned at h
    unfold flagNext
    dsimp only [isValidStep] at h ⊢
    split_ifs at h ⊢
    all_goals simp_all

theorem flagNext_true_iff (H : Host) (up : Bool) (c : Call) :
    flagNext H up c = true ↔ returned H up c = true ∨ (up = true ∧ ¬ belowGyro c) := by
  cases up with
  | true =>
    obtain ⟨h1, h2⟩ := isValidStep_of_up H { c.obj with isStepUp := true } c.gyroMagnitude
      c.accMagnitude c.pressure c.timeSinceLastStep rfl
    have hr : returned H true c = false := h1
    have h2b : flagNext H true c = false ↔ belowGyro c := h2
    rw [hr]
    constructor
    · intro h
      refine Or.inr ⟨rfl, fun hb => ?_⟩
      rw [h2b.2 hb] at h
      cases h
    · rintro (h | ⟨_, h⟩)
      · cases h
      · cases hf : flagNext H true c with
        | true => rfl
        | false => exact absurd (h2b.1 hf) h
  | false =>
    constructor
    · intro h
      left
      unfold flagNext at h
      unfold returned
      dsimp only [isValidStep] at h ⊢
      split_ifs at h ⊢
      all_goals simp_all
    · rintro (h | ⟨h, _⟩)
      · exact (returned_true_iff H false c h).2
      · cases h

theorem flagAfter_append (H : Host) (up : Bool) (xs ys : List Call) :
    flagAfter H up (xs ++ ys) = flagAfter H (flagAfter H up xs) ys := by
  simp [flagAfter, List.foldl_append]

theorem flagAfter_cons (H : Host) (up : Bool) (c : Call) (ys : List Call) :
    flagAfter H up (c :: ys) = flagAfter H (flagNext H up c) ys := rfl

theorem flagAfter_stays_up (H : Host) (mid : List Call)
    (h : ∀ d ∈ mid, ¬ belowGyro d) : flagAfter H true mid = true := by
  induction mid with
  | nil => rfl
  | cons d rest ih =>
    rw [flagAfter_cons]
    have hd : flagNext H true d = true :=
      (flagNext_true_iff H true d).2 (Or.inr ⟨rfl, h d (List.mem_cons_self _ _)⟩)
    rw [hd]
    exact ih (fun e he => h e (List.mem_cons_of_mem _ he))

theorem flagAfter_true_iff (H : Host) (calls : List Call) :
    flagAfter H false calls = true ↔
      ∃ pre c post, calls = pre ++ c :: post ∧
        returned H (flagAfter H false pre) c = true ∧ ∀ d ∈ post, ¬ belowGyro d := by
  constructor
  · induction calls using List.reverseRecOn with
    | nil => intro h; cases h
    | append_singleton xs c ih =>
      intro h
      rw [flagAfter_append] at h
      have h2 : flagNext H (flagAfter H false xs) c = true := h
      rcases (flagNext_true_iff H _ c).1 h2 with hr | ⟨hup, hnb⟩
      · exact ⟨xs, c, [], rfl, hr, fun d hd => by cases hd⟩
      · obtain ⟨pre, c0, post, he, hr, hp⟩ := ih hup
        refine ⟨pre, c0, post ++ [c], by rw [he]; simp, hr, ?_⟩
        intro d hd
        rcases List.mem_append.1 hd with hd | hd
        · exact hp d hd
        · rw [List.mem_singleton.1 hd]
          exact hnb
  · rintro ⟨pre, c, post, he, hr, hp⟩
    rw [he, flagAfter_append, flagAfter_cons, (returned_true_iff H _ c hr).2]
    exact flagAfter_stays_up H post hp

/-- C18: in every sequence of `isValidStep` calls starting from the constructor
state (`isStepUp = false`), between two calls that return true there is a call
whose gyro magnitude is strictly below `gyroThreshold`; and `isStepUp` is true
after the sequence exactly when some call returned true and no later call had a
gyro magnitude strictly below `gyroThreshold`. -/
theorem C18_steps_alternate (H : Host) :
    (∀ (pre mid : List Call) (c c2 : Call),
      returned H (flagAfter H false pre) c = true →
      returned H (flagAfter H false (pre ++ c :: mid)) c2 = true →
      ∃ d ∈ mid, belowGyro d) ∧
    (∀ calls : List Call,
      flagAfter H false calls = true ↔
        ∃ pre c post, calls = pre ++ c :: post ∧
          returned H (flagAfter H false pre) c = true ∧ ∀ d ∈ post, ¬ belowGyro d) := by
  refine ⟨?_, fun calls => flagAfter_true_iff H calls⟩
  intro pre mid c c2 h1 h2
  by_contra hcon
  have hall : ∀ d ∈ mid, ¬ belowGyro d := fun d hd hb => hcon ⟨d, hd, hb⟩
  have hup : flagAfter H false (pre ++ c :: mid) = true := by
    rw [flagAfter_append, flagAfter_cons, (returned_true_iff H _ c h1).2]
    exact flagAfter_stays_up H mid hall
  have := (returned_true_iff H _ c2 h2).1
  rw [hup] at this
  cases this

theorem returned_callWith_two : returned sampleHost false (callWith 2) = true := by
  norm_num [returned, isValidStep, pressureChange, sampleHost, callWith, StepCounter.new,
    Options.defaults, abs_of_neg]

theorem flagNext_callWith_two : flagNext sampleHost false (callWith 2) = true :=
  (returned_true_iff sampleHost false (callWith 2) returned_callWith_two).2

theorem flagNext_callWith_one : flagNext sampleHost true (callWith 1) = false := by
  norm_num [flagNext, isValidStep, pressureChange, sampleHost, callWith, StepCounter.new,
    Options.defaults, abs_of_neg]

/-- C18 on the calls with gyro magnitudes `2, 1, 2` (threshold `1.5`): the first
and the third return true, and the second is below the threshold. -/
theorem C18_steps_alternate_witness :
    returned sampleHost (flagAfter sampleHost false []) (callWith 2) = true ∧
    returned sampleHost (flagAfter sampleHost false ([] ++ callWith 2 :: [callWith 1]))
      (callWith 2) = true ∧
    ∃ d ∈ [callWith 1], belowGyro d := by
  have h1 : returned sampleHost (flagAfter sampleHost false []) (callWith 2) = true :=
    returned_callWith_two
  have h2 : returned sampleHost (flagAfter sampleHost false ([] ++ callWith 2 :: [callWith 1]))
      (callWith 2) = true := by
    have hf : flagAfter sampleHost false ([] ++ callWith 2 :: [callWith 1]) = false := by
      show flagNext sampleHost (flagNext sampleHost false (callWith 2)) (callWith 1) = false
      rw [flagNext_callWith_two, flagNext_callWith_one]
    rw [hf]
    exact returned_callWith_two
  exact ⟨h1, h2, (C18_steps_alternate sampleHost).1 [] [callWith 1] (callWith 2) (callWith 2)
    h1 h2⟩

end Pedometer
